import Mathlib

/-!
Verification of the hyperdrive scraping/analysis pipeline.

This file gives a shallow embedding, in Lean 4, of the core of the
repository: the Gemini analyzer chunking logic (`app/analyzer.py`), the
date-window generation and the three scraping loops (`app/scraper_search.py`,
`app/scraper_timeline.py`, `app/scraper.py`), the Redis-backed job queue
(`app/jobs.py`) and the worker pipeline (`worker.py`).

Conventions used by the embedding:
* Python `str` values that are only compared or stored are embedded as Lean
  `String`; text that is measured and cut (the analyzer's compiled tweet
  text) is embedded as `List Char`, which is exactly the character sequence
  Python's `len`/slicing operates on.
* Calendar dates (`datetime` at day granularity, `timedelta(days=n)`) are
  embedded as integers counting days; `strftime('%Y-%m-%d')` is an injective
  rendering of such a day, so windows are kept as pairs of days and a
  request URL is kept as the tuple of values formatted into it.
* The network, the VPN/container controls and the LLM are external effects;
  they are passed in as oracles (`ℕ → FetchOutcome` giving the n-th page
  fetch's parsed outcome, `ℕ → Bool` giving the n-th rate-limit reset's
  environment-dependent outcome, a function for the model's reply).  HTML
  parsing (BeautifulSoup selectors) is external-library territory, so a
  fetched page is embedded at the parse-result level: HTTP status, optional
  error-panel text, the per-item parse results and the next cursor.
* Each loop also returns the trace of fetch attempts it made, so that
  temporal claims can be stated.
* Unbounded `while` loops become fuel-indexed recursion; running out of
  fuel ends the trace early, it never invents behaviour.

The file is laid out as definitions first, then the theorems.
-/

/-! # Part I — Definitions -/

namespace PyText

/-- Python's `str.strip()` whitespace set (ASCII part): a character stripped
by `strip()` / detected by `isspace()`. -/
def pyIsSpace (c : Char) : Bool :=
  c = ' ' || c = '\t' || c = '\n' || c = '\r' || c = '\x0b' || c = '\x0c'

/-- `not s.strip()` in Python: the string is empty or all whitespace. -/
def isBlank (s : List Char) : Bool := s.all pyIsSpace

/-- One step of Python's `str.split(sep)` for a non-empty separator
`c :: cs`: scan left to right, cut at the first occurrence of the
separator, skip it, continue after it.  `acc` holds the (reversed)
characters of the current field. -/
def splitSepAux (c : Char) (cs : List Char) : List Char → List Char → List (List Char)
  | [], acc => [acc.reverse]
  | x :: rest, acc =>
    if (c :: cs).isPrefixOf (x :: rest) then
      acc.reverse :: splitSepAux c cs ((x :: rest).drop (c :: cs).length) []
    else
      splitSepAux c cs rest (x :: acc)
termination_by s _ => s.length
decreasing_by
  all_goals simp only [List.length_drop, List.length_cons]
  all_goals omega

/-- Python's `s.split(sep)` for a fixed non-empty separator.  (Python raises
on an empty separator; the `[]` branch is never used here.) -/
def splitSep (sep : List Char) (s : List Char) : List (List Char) :=
  match sep with
  | [] => [s]
  | c :: cs => splitSepAux c cs s []

/-- `needle in haystack` for Python strings (substring containment). -/
def containsSub (needle : List Char) : List Char → Bool
  | [] => needle.isPrefixOf []
  | x :: rest => needle.isPrefixOf (x :: rest) || containsSub needle rest

/-- Python's `str.lower()` (ASCII part suffices for the markers checked). -/
def pyLower (s : List Char) : List Char := s.map Char.toLower

/-- Insertion step of a stable sort: place `a` before the first later
element it compares `≤` to (so, before any later element with an equal
key). -/
def insertSorted (le : α → α → Bool) (a : α) : List α → List α
  | [] => [a]
  | b :: l => if le a b then a :: b :: l else b :: insertSorted le a l

/-- Python's `sorted(l, key=...)` is a stable sort; `pySorted` realizes it
as insertion sort, inserting elements from the right so that an earlier
element ends up before any later element with an equal key. -/
def pySorted (le : α → α → Bool) (l : List α) : List α :=
  l.foldr (insertSorted le) []

end PyText

/-! ## `app/analyzer.py` — GeminiAnalyzer

The analyzer's text-manipulating core.  The prompts' wording and the
parsing of the model's replies do not influence which completion calls are
made, so the embedding records the calls themselves (`GeminiCall`); the
model is the external `generate(prompt) -> text` capability. -/

namespace Analyzer

open PyText

/-- `GeminiAnalyzer.MAX_TOKENS_PER_CHUNK`. -/
def MAX_TOKENS_PER_CHUNK : ℕ := 750000

/-- `GeminiAnalyzer.CHARS_PER_TOKEN`. -/
def CHARS_PER_TOKEN : ℕ := 4

/-- The record separator `'\n---\n'` used between formatted tweets. -/
def tweetSep : List Char := ['\n', '-', '-', '-', '\n']

/-- `_estimate_tokens`: `len(text) // self.CHARS_PER_TOKEN`. -/
def estimateTokens (text : List Char) : ℕ := text.length / CHARS_PER_TOKEN

/-- `max_chars = self.MAX_TOKENS_PER_CHUNK * self.CHARS_PER_TOKEN`. -/
def maxChars : ℕ := MAX_TOKENS_PER_CHUNK * CHARS_PER_TOKEN

/-- The greedy accumulation loop inside `_chunk_tweets` (the `for tweet in
tweets:` loop plus the final flush), kept at the level of groups of records;
`_chunk_tweets` joins each group with `'\n---\n'` when appending it to
`chunks`.  `cur` is `current_chunk`, `curLen` is `current_length`. -/
def chunkGroups (maxC : ℕ) : List (List Char) → List (List Char) → ℕ → List (List (List Char))
  | [], cur, _ => if cur.isEmpty then [] else [cur]
  | t :: ts, cur, curLen =>
    let tl := t.length + 5
    if maxC < curLen + tl then
      (if cur.isEmpty then [] else [cur]) ++ chunkGroups maxC ts [t] tl
    else
      chunkGroups maxC ts (cur ++ [t]) (curLen + tl)

/-- `GeminiAnalyzer._chunk_tweets`. -/
def chunk_tweets (compiled : List Char) : List (List Char) :=
  if compiled.length ≤ maxChars then [compiled]
  else (chunkGroups maxChars (splitSep tweetSep compiled) [] 0).map
    (List.intercalate tweetSep)

/-- One `model.generate_content(...)` invocation made by `analyze`. -/
inductive GeminiCall
  | single (payload : List Char)
  | chunk (chunkNum totalChunks : ℕ) (payload : List Char)
  | synthesis (numChunks : ℕ)
deriving DecidableEq

/-- The sequence of completion calls `GeminiAnalyzer.analyze` issues:
no call when the compiled text is blank (early return), one `SINGLE_PROMPT`
call when the token estimate is within the per-chunk budget, otherwise one
`CHUNK_PROMPT` call per chunk (numbered from 1) followed by one
`FINAL_SUMMARY_PROMPT` synthesis call. -/
def analyzeCalls (compiled : List Char) : List GeminiCall :=
  if isBlank compiled then []
  else if estimateTokens compiled ≤ MAX_TOKENS_PER_CHUNK then
    [GeminiCall.single compiled]
  else
    let chunks := chunk_tweets compiled
    chunks.enum.map (fun p => GeminiCall.chunk (p.1 + 1) chunks.length p.2)
      ++ [GeminiCall.synthesis chunks.length]

/-- Size of a record as the greedy loop counts it: `len(tweet) + 5`. -/
def weight (g : List (List Char)) : ℕ := (g.map (fun t => t.length + 5)).sum

/-- A single formatted record of 1 800 000 characters (600 000 estimated
tokens, under budget on its own). -/
def tItem : List Char := List.replicate 1800000 'a'

/-- Five such records joined by `'\n---\n'`: 9 000 020 characters,
2 250 005 estimated tokens — exactly 3.0 times the 750 000-token budget. -/
def C8big : List Char :=
  tItem ++ tweetSep ++ (tItem ++ tweetSep ++ (tItem ++ tweetSep ++ (tItem ++ tweetSep ++ tItem)))

/-- One separator-free record of 3 000 001 characters: one character over
the 3 000 000-character chunk budget. -/
def C9big : List Char := List.replicate 3000001 'a'

end Analyzer

/-! ## Shared Nitter scraping infrastructure

`app/scraper_search.py` and `app/scraper_timeline.py` contain identical
copies of the VPN pool, the VPN-switch selection and the rate-limit reset
protocol; they are embedded once here. -/

namespace Nitter

/-- The parsed form of one fetched Nitter page, at the level the loops
consume it: HTTP status, the `.error-panel` text when present, the parse
result of each `.timeline-item` (`none` when `_parse_tweet` or
`_parse_retweet` rejects the element), the cursor of the `show-more` link,
and whether a `.timeline-end` marker is present. -/
structure Page (τ : Type) where
  status : ℕ
  errorPanel : Option String := none
  items : List (Option τ) := []
  nextCursor : Option String := none
  timelineEnd : Bool := false
deriving DecidableEq

/-- Outcome of one `client.get(url)`: a parsed page, or the exceptions the
loops catch (`httpx.TimeoutException`, other request errors). -/
inductive FetchOutcome (τ : Type)
  | page (p : Page τ)
  | timeout
  | netError (msg : String)
deriving DecidableEq

/-- `VPN_COUNTRIES`, identical in `NitterSearchScraper` and
`NitterTimelineScraper`. -/
def VPN_COUNTRIES : List String :=
  ["us", "gb", "de", "nl", "se", "ch", "ca", "fr", "jp", "au",
   "sg", "br", "it", "es", "pl", "fi", "no", "dk", "at", "be"]

/-- The country `_switch_vpn` picks:
`self.VPN_COUNTRIES[self.restart_count % len(self.VPN_COUNTRIES)]`. -/
def switchVpnCountry (restartCount : ℕ) : String :=
  VPN_COUNTRIES.getD (restartCount % VPN_COUNTRIES.length) ""

/-- One execution of `_reset_for_rate_limit`: the cumulative counter after
the increment, the country selected by `_switch_vpn` (none when the cap
check aborted before any step ran), and whether the reset succeeded. -/
structure ResetEvent where
  n : ℕ
  country : Option String := none
  success : Bool
deriving DecidableEq

/-- `_reset_for_rate_limit`: increment `restart_count`; abort (failure)
when the cap is exceeded; otherwise run the protocol — cache flush, proxy
stop and VPN switch are soft steps, the proxy start and the availability
probe are the hard gate, folded into the environment oracle for reset
number `n`. -/
def resetForRateLimit (resetEnv : ℕ → Bool) (maxRestarts restartCount : ℕ) : ResetEvent :=
  let n := restartCount + 1
  if maxRestarts < n then { n := n, country := none, success := false }
  else { n := n, country := some (switchVpnCountry n), success := resetEnv n }

/-- `"rate" in error_text.lower()`. -/
def panelMentionsRate (txt : String) : Bool :=
  PyText.containsSub "rate".toList (PyText.pyLower txt.toList)

/-- `"not found" in error_text.lower()`. -/
def panelMentionsNotFound (txt : String) : Bool :=
  PyText.containsSub "not found".toList (PyText.pyLower txt.toList)

/-- The consecutive-empty-page counter as a fold over the `newCount` fields
of a trace: a page with zero new posts increments it, a page with new posts
resets it, attempts without a parsed post count (rate-limit retries,
terminal errors) leave it unchanged. -/
def countAfter (c : ℕ) : List (Option ℕ) → ℕ
  | [] => c
  | nc :: rest =>
    match nc with
    | some 0 => countAfter (c + 1) rest
    | some (_ + 1) => countAfter 0 rest
    | none => countAfter c rest

end Nitter

/-! ## `app/scraper_search.py` — NitterSearchScraper -/

namespace SearchScraper

/-- The `Tweet` dataclass of `app/scraper_search.py`. -/
structure Tweet where
  id : String
  content : String
  timestamp : String
  url : String := ""
  images : List String := []
  retweets : ℕ := 0
  quotes : ℕ := 0
  likes : ℕ := 0
  replies : ℕ := 0
  is_retweet : Bool := false
  is_reply : Bool := false
deriving DecidableEq

/-- The `ScrapeResult` dataclass of `app/scraper_search.py`. -/
structure ScrapeResult where
  username : String
  tweets : List Tweet := []
  error : Option String := none
  rate_limited : Bool := false
  total_scraped : ℕ := 0
  date_ranges_processed : ℕ := 0
deriving DecidableEq

/-- The data formatted into one search-page URL:
`{base}/search?f=tweets&q=from:{username} since:{since} until:{until}` plus
the optional `&cursor=`.  URL formatting is injective in these values. -/
structure SearchRequest where
  username : String
  sinceDay : ℤ
  untilDay : ℤ
  cursor : Option String := none
deriving DecidableEq

/-- One fetch attempt of the range loop, with the reset it triggered (if
any) and the number of new posts it contributed (for parsed `200` pages). -/
structure Attempt where
  req : SearchRequest
  outcome : Nitter.FetchOutcome Tweet
  reset : Option Nitter.ResetEvent := none
  newCount : Option ℕ := none
deriving DecidableEq

/-- State of `_scrape_date_range`'s `while True:` loop, plus the job-wide
values threaded through it (`seen_ids`, `restart_count`, and the position
in the fetch oracle). -/
structure RangeState where
  cursor : Option String := none
  tweets : List Tweet := []
  seen : List String := []
  restartCount : ℕ := 0
  fetchIdx : ℕ := 0
deriving DecidableEq

/-- Result of one `_scrape_date_range` call: its return value
`(tweets, rate_limited, error)` plus the threaded values and the trace. -/
structure RangeOutcome where
  tweets : List Tweet
  rateLimited : Bool
  error : Option String
  seen : List String
  restartCount : ℕ
  fetchIdx : ℕ
  attempts : List Attempt
deriving DecidableEq

/-- The `for elem in tweet_elements:` filter of `_scrape_date_range`:
drop unparsed items, previously seen ids, and (by request) retweets and
replies; record each kept id in `seen_ids` immediately. -/
def processItems (seen : List String) (includeRetweets includeReplies : Bool) :
    List (Option Tweet) → List Tweet × List String
  | [] => ([], seen)
  | none :: rest => processItems seen includeRetweets includeReplies rest
  | some t :: rest =>
    if seen.contains t.id then processItems seen includeRetweets includeReplies rest
    else if !includeRetweets && t.is_retweet then
      processItems seen includeRetweets includeReplies rest
    else if !includeReplies && t.is_reply then
      processItems seen includeRetweets includeReplies rest
    else
      let pr := processItems (t.id :: seen) includeRetweets includeReplies rest
      (t :: pr.1, pr.2)

/-- `NitterSearchScraper._scrape_date_range`: paginate one date window.
429 or an in-body rate marker triggers `_reset_for_rate_limit`; on success
the same page is refetched (`page -= 1; continue`, cursor untouched), on
failure the window aborts rate-limited.  A page with zero new posts ends
the window; so does a missing cursor, a non-200 status, a non-rate error
panel, or a fetch exception. -/
def scrapeRangeLoop (env : ℕ → Nitter.FetchOutcome Tweet) (resetEnv : ℕ → Bool)
    (maxRestarts : ℕ) (username : String) (sinceDay untilDay : ℤ)
    (includeRetweets includeReplies : Bool) : ℕ → RangeState → RangeOutcome
  | 0, st =>
    { tweets := st.tweets, rateLimited := false, error := none, seen := st.seen, restartCount := st.restartCount, fetchIdx := st.fetchIdx, attempts := [] }
  | fuel + 1, st =>
    let req : SearchRequest :=
      { username := username, sinceDay := sinceDay, untilDay := untilDay, cursor := st.cursor }
    match env st.fetchIdx with
    | .timeout =>
      { tweets := st.tweets, rateLimited := false, error := some "Timeout", seen := st.seen, restartCount := st.restartCount, fetchIdx := st.fetchIdx + 1, attempts := [{ req := req, outcome := .timeout }] }
    | .netError m =>
      { tweets := st.tweets, rateLimited := false, error := some m, seen := st.seen, restartCount := st.restartCount, fetchIdx := st.fetchIdx + 1, attempts := [{ req := req, outcome := .netError m }] }
    | .page p =>
      if p.status = 429 then
        let ev := Nitter.resetForRateLimit resetEnv maxRestarts st.restartCount
        if ev.success then
          let rest := scrapeRangeLoop env resetEnv maxRestarts username sinceDay untilDay
            includeRetweets includeReplies fuel
            { st with restartCount := ev.n, fetchIdx := st.fetchIdx + 1 }
          { rest with attempts := { req := req, outcome := .page p, reset := some ev } :: rest.attempts }
        else
          { tweets := st.tweets, rateLimited := true, error := some "Rate limited (reset failed)", seen := st.seen, restartCount := ev.n, fetchIdx := st.fetchIdx + 1, attempts := [{ req := req, outcome := .page p, reset := some ev }] }
      else if p.status ≠ 200 then
        { tweets := st.tweets, rateLimited := false, error := some ("HTTP " ++ toString p.status), seen := st.seen, restartCount := st.restartCount, fetchIdx := st.fetchIdx + 1, attempts := [{ req := req, outcome := .page p }] }
      else
        match p.errorPanel with
        | some txt =>
          if Nitter.panelMentionsRate txt then
            let ev := Nitter.resetForRateLimit resetEnv maxRestarts st.restartCount
            if ev.success then
              let rest := scrapeRangeLoop env resetEnv maxRestarts username sinceDay untilDay
                includeRetweets includeReplies fuel
                { st with restartCount := ev.n, fetchIdx := st.fetchIdx + 1 }
              { rest with attempts := { req := req, outcome := .page p, reset := some ev } :: rest.attempts }
            else
              { tweets := st.tweets, rateLimited := true, error := some "Rate limited (reset failed)", seen := st.seen, restartCount := ev.n, fetchIdx := st.fetchIdx + 1, attempts := [{ req := req, outcome := .page p, reset := some ev }] }
          else
            { tweets := st.tweets, rateLimited := false, error := some txt, seen := st.seen, restartCount := st.restartCount, fetchIdx := st.fetchIdx + 1, attempts := [{ req := req, outcome := .page p }] }
        | none =>
          let pr := processItems st.seen includeRetweets includeReplies p.items
          let att : Attempt := { req := req, outcome := .page p, newCount := some pr.1.length }
          let st' : RangeState :=
            { st with tweets := st.tweets ++ pr.1, seen := pr.2, fetchIdx := st.fetchIdx + 1 }
          if pr.1.length = 0 then
            { tweets := st'.tweets, rateLimited := false, error := none, seen := st'.seen, restartCount := st'.restartCount, fetchIdx := st'.fetchIdx, attempts := [att] }
          else
            match p.nextCursor with
            | none =>
              { tweets := st'.tweets, rateLimited := false, error := none, seen := st'.seen, restartCount := st'.restartCount, fetchIdx := st'.fetchIdx, attempts := [att] }
            | some c =>
              let rest := scrapeRangeLoop env resetEnv maxRestarts username sinceDay untilDay
                includeRetweets includeReplies fuel { st' with cursor := some c }
              { rest with attempts := att :: rest.attempts }

/-- `_generate_date_ranges`'s `while current < end_date:` loop, as
fuel-indexed recursion (the fuel passed by `generateDateRanges` always
suffices for a positive `chunk_days`). -/
def generateDateRangesAux (chunkDays : ℕ) : ℕ → ℤ → ℤ → List (ℤ × ℤ)
  | 0, _, _ => []
  | fuel + 1, current, endD =>
    if current < endD then
      let chunkEnd := min (current + (chunkDays : ℤ)) endD
      (current, chunkEnd) :: generateDateRangesAux chunkDays fuel chunkEnd endD
    else []

/-- `NitterSearchScraper._generate_date_ranges`. -/
def generateDateRanges (chunkDays : ℕ) (startD endD : ℤ) : List (ℤ × ℤ) :=
  generateDateRangesAux chunkDays ((endD - startD).toNat + 1) startD endD

/-- The windows `l` tile the half-open span `[a, b)` left to right: each
window starts where the previous one ended, is non-degenerate, and the
last one ends at `b`. -/
def Chained (a : ℤ) : List (ℤ × ℤ) → ℤ → Prop
  | [], b => a = b
  | p :: ps, b => p.1 = a ∧ a < p.2 ∧ Chained p.2 ps b

/-- The `for i, (since, until) in enumerate(date_ranges, 1):` loop of
`scrape_user`: stop when the cap is reached, run `_scrape_date_range` per
window threading `seen_ids`/`restart_count`, stop on a rate-limited window.
Returns (tweets, rate_limited, error, windows processed, restart count). -/
def scrapeRanges (env : ℕ → Nitter.FetchOutcome Tweet) (resetEnv : ℕ → Bool)
    (maxRestarts maxTweets : ℕ) (username : String)
    (includeRetweets includeReplies : Bool) (rangeFuel : ℕ) :
    List (ℤ × ℤ) → List Tweet → List String → ℕ → ℕ → ℕ →
    List Tweet × Bool × Option String × ℕ × ℕ
  | [], acc, _, rc, _, processed => (acc, false, none, processed, rc)
  | (s, u) :: rest, acc, seen, rc, fi, processed =>
    if maxTweets ≤ acc.length then (acc, false, none, processed, rc)
    else
      let out := scrapeRangeLoop env resetEnv maxRestarts username s u
        includeRetweets includeReplies rangeFuel
        { cursor := none, tweets := [], seen := seen, restartCount := rc, fetchIdx := fi }
      let acc' := acc ++ out.tweets
      if out.rateLimited then (acc', true, some "Rate limited", processed + 1, out.restartCount)
      else scrapeRanges env resetEnv maxRestarts maxTweets username
        includeRetweets includeReplies rangeFuel rest acc' out.seen out.restartCount
        out.fetchIdx (processed + 1)

/-- `NitterSearchScraper.scrape_user`: default the range to the trailing
year, generate the windows, reverse them (most recent first), and drive
the per-window loop. -/
def scrape_user (env : ℕ → Nitter.FetchOutcome Tweet) (resetEnv : ℕ → Bool)
    (maxRestarts maxTweets chunkDays : ℕ) (username : String)
    (startDate endDate : Option ℤ) (nowDay : ℤ)
    (includeRetweets includeReplies : Bool) (rangeFuel : ℕ) : ScrapeResult :=
  let endD := endDate.getD nowDay
  let startD := startDate.getD (endD - 365)
  let dateRanges := (generateDateRanges chunkDays startD endD).reverse
  let r := scrapeRanges env resetEnv maxRestarts maxTweets username
    includeRetweets includeReplies rangeFuel dateRanges [] [] 0 0 0
  { username := username, tweets := r.1, error := if r.2.1 then some "Rate limited" else none, rate_limited := r.2.1, total_scraped := r.1.length, date_ranges_processed := r.2.2.2.1 }

end SearchScraper

/-! ## `app/scraper_timeline.py` — NitterTimelineScraper -/

namespace TimelineScraper

/-- The `Tweet` dataclass of `app/scraper_timeline.py` (retweets only;
`_parse_retweet` always sets `is_retweet=True`). -/
structure Tweet where
  id : String
  content : String
  timestamp : String
  url : String := ""
  images : List String := []
  original_author : String := ""
  retweets : ℕ := 0
  quotes : ℕ := 0
  likes : ℕ := 0
  replies : ℕ := 0
  is_retweet : Bool := true
deriving DecidableEq

/-- The data formatted into one timeline-page URL:
`{base}/{username}` plus the optional `?cursor=`. -/
structure TimelineRequest where
  username : String
  cursor : Option String := none
deriving DecidableEq

/-- One fetch attempt of the retweet loop. -/
structure Attempt where
  req : TimelineRequest
  outcome : Nitter.FetchOutcome Tweet
  reset : Option Nitter.ResetEvent := none
  newCount : Option ℕ := none
deriving DecidableEq

/-- State of `scrape_retweets`'s `while` loop. -/
structure TState where
  cursor : Option String := none
  tweets : List Tweet := []
  seen : List String := []
  restartCount : ℕ := 0
  fetchIdx : ℕ := 0
  consecutiveEmpty : ℕ := 0
  page : ℕ := 0
deriving DecidableEq

/-- Result of `scrape_retweets`, with the trace. -/
structure TOutcome where
  tweets : List Tweet
  rateLimited : Bool
  error : Option String
  pagesProcessed : ℕ
  restartCount : ℕ
  attempts : List Attempt
deriving DecidableEq

/-- The `for item in timeline_items:` filter: keep parsed retweets whose id
is new, recording it in `seen_ids`. -/
def processRetweetItems (seen : List String) :
    List (Option Tweet) → List Tweet × List String
  | [] => ([], seen)
  | none :: rest => processRetweetItems seen rest
  | some t :: rest =>
    if seen.contains t.id then processRetweetItems seen rest
    else
      let pr := processRetweetItems (t.id :: seen) rest
      (t :: pr.1, pr.2)

/-- `NitterTimelineScraper.scrape_retweets`'s pagination loop: stop at the
retweet cap or a `.timeline-end` marker; reset and refetch the same page on
rate limiting; stop after 5 consecutive pages with no new retweets, or when
no cursor remains. -/
def scrapeRetweetsLoop (env : ℕ → Nitter.FetchOutcome Tweet) (resetEnv : ℕ → Bool)
    (maxRestarts maxRetweets : ℕ) (username : String) : ℕ → TState → TOutcome
  | 0, st =>
    { tweets := st.tweets, rateLimited := false, error := none, pagesProcessed := st.page, restartCount := st.restartCount, attempts := [] }
  | fuel + 1, st =>
    if maxRetweets ≤ st.tweets.length then
      { tweets := st.tweets, rateLimited := false, error := none, pagesProcessed := st.page, restartCount := st.restartCount, attempts := [] }
    else
      let pageNum := st.page + 1
      let req : TimelineRequest := { username := username, cursor := st.cursor }
      match env st.fetchIdx with
      | .timeout =>
        { tweets := st.tweets, rateLimited := false, error := some "Timeout", pagesProcessed := pageNum, restartCount := st.restartCount, attempts := [{ req := req, outcome := .timeout }] }
      | .netError m =>
        { tweets := st.tweets, rateLimited := false, error := some m, pagesProcessed := pageNum, restartCount := st.restartCount, attempts := [{ req := req, outcome := .netError m }] }
      | .page p =>
        if p.status = 429 then
          let ev := Nitter.resetForRateLimit resetEnv maxRestarts st.restartCount
          if ev.success then
            let rest := scrapeRetweetsLoop env resetEnv maxRestarts maxRetweets username fuel
              { st with restartCount := ev.n, fetchIdx := st.fetchIdx + 1 }
            { rest with attempts := { req := req, outcome := .page p, reset := some ev } :: rest.attempts }
          else
            { tweets := st.tweets, rateLimited := true, error := some "Rate limited (reset failed)", pagesProcessed := pageNum, restartCount := ev.n, attempts := [{ req := req, outcome := .page p, reset := some ev }] }
        else if p.status ≠ 200 then
          { tweets := st.tweets, rateLimited := false, error := some ("HTTP " ++ toString p.status), pagesProcessed := pageNum, restartCount := st.restartCount, attempts := [{ req := req, outcome := .page p }] }
        else
          match p.errorPanel with
          | some txt =>
            if Nitter.panelMentionsRate txt then
              let ev := Nitter.resetForRateLimit resetEnv maxRestarts st.restartCount
              if ev.success then
                let rest := scrapeRetweetsLoop env resetEnv maxRestarts maxRetweets username fuel
                  { st with restartCount := ev.n, fetchIdx := st.fetchIdx + 1 }
                { rest with attempts := { req := req, outcome := .page p, reset := some ev } :: rest.attempts }
              else
                { tweets := st.tweets, rateLimited := true, error := some "Rate limited (reset failed)", pagesProcessed := pageNum, restartCount := ev.n, attempts := [{ req := req, outcome := .page p, reset := some ev }] }
            else
              { tweets := st.tweets, rateLimited := false, error := some txt, pagesProcessed := pageNum, restartCount := st.restartCount, attempts := [{ req := req, outcome := .page p }] }
          | none =>
            if p.timelineEnd then
              { tweets := st.tweets, rateLimited := false, error := none, pagesProcessed := pageNum, restartCount := st.restartCount, attempts := [{ req := req, outcome := .page p }] }
            else
              let pr := processRetweetItems st.seen p.items
              let att : Attempt := { req := req, outcome := .page p, newCount := some pr.1.length }
              let st' : TState :=
                { st with tweets := st.tweets ++ pr.1, seen := pr.2, fetchIdx := st.fetchIdx + 1, page := pageNum }
              if pr.1.length = 0 then
                let ce := st.consecutiveEmpty + 1
                if 5 ≤ ce then
                  { tweets := st'.tweets, rateLimited := false, error := none, pagesProcessed := pageNum, restartCount := st'.restartCount, attempts := [att] }
                else
                  match p.nextCursor with
                  | none =>
                    { tweets := st'.tweets, rateLimited := false, error := none, pagesProcessed := pageNum, restartCount := st'.restartCount, attempts := [att] }
                  | some c =>
                    let rest := scrapeRetweetsLoop env resetEnv maxRestarts maxRetweets
                      username fuel { st' with cursor := some c, consecutiveEmpty := ce }
                    { rest with attempts := att :: rest.attempts }
              else
                match p.nextCursor with
                | none =>
                  { tweets := st'.tweets, rateLimited := false, error := none, pagesProcessed := pageNum, restartCount := st'.restartCount, attempts := [att] }
                | some c =>
                  let rest := scrapeRetweetsLoop env resetEnv maxRestarts maxRetweets
                    username fuel { st' with cursor := some c, consecutiveEmpty := 0 }
                  { rest with attempts := att :: rest.attempts }

/-- `NitterTimelineScraper.scrape_retweets` from its initial state. -/
def scrape_retweets (env : ℕ → Nitter.FetchOutcome Tweet) (resetEnv : ℕ → Bool)
    (maxRestarts maxRetweets : ℕ) (username : String) (fuel : ℕ) : TOutcome :=
  scrapeRetweetsLoop env resetEnv maxRestarts maxRetweets username fuel {}

end TimelineScraper

/-! ## `app/scraper.py` — NitterScraper (plain profile pagination) -/

namespace ProfileScraper

/-- The `Tweet` dataclass of `app/scraper.py`. -/
structure Tweet where
  id : String
  content : String
  timestamp : String
  retweets : ℕ := 0
  quotes : ℕ := 0
  likes : ℕ := 0
  replies : ℕ := 0
  is_retweet : Bool := false
  is_reply : Bool := false
deriving DecidableEq

/-- The data formatted into one profile-page URL. -/
structure ProfileRequest where
  username : String
  cursor : Option String := none
deriving DecidableEq

/-- One fetch attempt of the profile loop (this scraper has no reset
protocol: rate limiting is terminal). -/
structure Attempt where
  req : ProfileRequest
  outcome : Nitter.FetchOutcome Tweet
  newCount : Option ℕ := none
deriving DecidableEq

/-- State of `scrape_user`'s `while` loop in `app/scraper.py`. -/
structure PState where
  cursor : Option String := none
  tweets : List Tweet := []
  seen : List String := []
  fetchIdx : ℕ := 0
  consecutiveEmpty : ℕ := 0
deriving DecidableEq

/-- Result of `NitterScraper.scrape_user`, with the trace. -/
structure POutcome where
  tweets : List Tweet
  rateLimited : Bool
  error : Option String
  attempts : List Attempt
deriving DecidableEq

/-- The `for elem in tweet_elements:` filter of `app/scraper.py`, with the
`max_tweets` check at the top of each item iteration. -/
def processItemsCapped (maxTweets : ℕ) (total : ℕ) (seen : List String)
    (includeRetweets includeReplies : Bool) :
    List (Option Tweet) → List Tweet × List String
  | [] => ([], seen)
  | item :: rest =>
    if maxTweets ≤ total then ([], seen)
    else
      match item with
      | none => processItemsCapped maxTweets total seen includeRetweets includeReplies rest
      | some t =>
        if seen.contains t.id then
          processItemsCapped maxTweets total seen includeRetweets includeReplies rest
        else if !includeRetweets && t.is_retweet then
          processItemsCapped maxTweets total seen includeRetweets includeReplies rest
        else if !includeReplies && t.is_reply then
          processItemsCapped maxTweets total seen includeRetweets includeReplies rest
        else
          let pr := processItemsCapped maxTweets (total + 1) (t.id :: seen)
            includeRetweets includeReplies rest
          (t :: pr.1, pr.2)

/-- `NitterScraper.scrape_user`'s pagination loop: a 429, a 404, another
non-200 status, any error panel, a fetch exception, 3 consecutive pages
with no new tweets, a missing cursor, or the tweet cap all end the scrape. -/
def scrapeUserLoop (env : ℕ → Nitter.FetchOutcome Tweet) (maxTweets : ℕ)
    (username : String) (includeRetweets includeReplies : Bool) :
    ℕ → PState → POutcome
  | 0, st =>
    { tweets := st.tweets, rateLimited := false, error := none, attempts := [] }
  | fuel + 1, st =>
    if maxTweets ≤ st.tweets.length then
      { tweets := st.tweets, rateLimited := false, error := none, attempts := [] }
    else
      let req : ProfileRequest := { username := username, cursor := st.cursor }
      match env st.fetchIdx with
      | .timeout =>
        { tweets := st.tweets, rateLimited := false, error := some "Request timed out", attempts := [{ req := req, outcome := .timeout }] }
      | .netError m =>
        { tweets := st.tweets, rateLimited := false, error := some ("Request error: " ++ m), attempts := [{ req := req, outcome := .netError m }] }
      | .page p =>
        if p.status = 429 then
          { tweets := st.tweets, rateLimited := true, error := some "Rate limited by Nitter instance", attempts := [{ req := req, outcome := .page p }] }
        else if p.status = 404 then
          { tweets := st.tweets, rateLimited := false, error := some ("User @" ++ username ++ " not found"), attempts := [{ req := req, outcome := .page p }] }
        else if p.status ≠ 200 then
          { tweets := st.tweets, rateLimited := false, error := some ("HTTP error: " ++ toString p.status), attempts := [{ req := req, outcome := .page p }] }
        else
          match p.errorPanel with
          | some txt =>
            if Nitter.panelMentionsNotFound txt then
              { tweets := st.tweets, rateLimited := false, error := some ("User @" ++ username ++ " not found"), attempts := [{ req := req, outcome := .page p }] }
            else if Nitter.panelMentionsRate txt then
              { tweets := st.tweets, rateLimited := true, error := some "Rate limited", attempts := [{ req := req, outcome := .page p }] }
            else
              { tweets := st.tweets, rateLimited := false, error := some txt, attempts := [{ req := req, outcome := .page p }] }
          | none =>
            let pr := processItemsCapped maxTweets st.tweets.length st.seen
              includeRetweets includeReplies p.items
            let att : Attempt := { req := req, outcome := .page p, newCount := some pr.1.length }
            let st' : PState :=
              { st with tweets := st.tweets ++ pr.1, seen := pr.2, fetchIdx := st.fetchIdx + 1 }
            if pr.1.length = 0 then
              let ce := st.consecutiveEmpty + 1
              if 3 ≤ ce then
                { tweets := st'.tweets, rateLimited := false, error := none, attempts := [att] }
              else
                match p.nextCursor with
                | none =>
                  { tweets := st'.tweets, rateLimited := false, error := none, attempts := [att] }
                | some c =>
                  let rest := scrapeUserLoop env maxTweets username includeRetweets
                    includeReplies fuel { st' with cursor := some c, consecutiveEmpty := ce }
                  { rest with attempts := att :: rest.attempts }
            else
              match p.nextCursor with
              | none =>
                { tweets := st'.tweets, rateLimited := false, error := none, attempts := [att] }
              | some c =>
                let rest := scrapeUserLoop env maxTweets username includeRetweets
                  includeReplies fuel { st' with cursor := some c, consecutiveEmpty := 0 }
                { rest with attempts := att :: rest.attempts }

/-- `NitterScraper.scrape_user` from its initial state. -/
def scrape_user (env : ℕ → Nitter.FetchOutcome Tweet) (maxTweets : ℕ)
    (username : String) (includeRetweets includeReplies : Bool) (fuel : ℕ) : POutcome :=
  scrapeUserLoop env maxTweets username includeRetweets includeReplies fuel {}

end ProfileScraper

/-! ## `worker.py` item records (needed by the job record) -/

namespace Worker

/-- The indexed tweet dict built by `Worker.process_job` (step 3). -/
structure IndexedTweet where
  index : ℕ
  id : String
  text : String
  date : String
  url : String
  is_retweet : Bool
  original_author : Option String
  images : List String
  flagged : Bool
  flag_reason : Option String
deriving DecidableEq

end Worker

/-! ## `app/jobs.py` — Job and JobQueue -/

namespace Jobs

/-- The `JobStatus` enum. -/
inductive JobStatus
  | pending
  | running
  | completed
  | failed
deriving DecidableEq

/-- One entry of `highlighted_tweets` as the worker builds it:
`{"text":…, "reason":…, "url":…, "images":…}`. -/
structure HighlightedTweet where
  text : String
  reason : Option String := none
  url : String := ""
  images : List String := []
deriving DecidableEq

/-- The `Job` dataclass of `app/jobs.py`.  `start_date`/`end_date` are ISO
date strings, modelled by their day values.  `all_tweets` is the one field
of the worker-facing job-record variant that is not in `app/jobs.py`'s
dataclass; it is modelled from the spec (§3: analysis outputs include the
flagged/highlighted items; `worker.py` stores it via `complete_job`,
`app/main.py` reads `job.all_tweets`). -/
structure Job where
  id : String
  username : String
  status : JobStatus := .pending
  start_date : Option ℤ := none
  end_date : Option ℤ := none
  include_tweets : Bool := true
  include_retweets : Bool := true
  include_replies : Bool := true
  custom_prompt : Option String := none
  progress : ℕ := 0
  current_step : String := "Queued"
  tweets_scraped : ℕ := 0
  retweets_scraped : ℕ := 0
  analysis : String := ""
  themes : List String := []
  highlighted_tweets : List HighlightedTweet := []
  error : Option String := none
  created_at : String := ""
  started_at : Option String := none
  completed_at : Option String := none
  worker_id : Option String := none
  all_tweets : List Worker.IndexedTweet := []
deriving DecidableEq

/-- `redis.hset(JOBS_KEY, id, job)`: set one field of the job hash. -/
def setJob : List (String × Job) → String → Job → List (String × Job)
  | [], id, j => [(id, j)]
  | (k, v) :: rest, id, j =>
    if k = id then (id, j) :: rest else (k, v) :: setJob rest id j

/-- The Redis state the queue uses: the job hash and the pending-id list. -/
structure QueueState where
  jobs : List (String × Job) := []
  queue : List String := []
deriving DecidableEq

/-- `JobQueue.get_job`: `hget` then deserialize. -/
def get_job (st : QueueState) (jobId : String) : Option Job :=
  (st.jobs.find? (fun kv => kv.1 = jobId)).map (fun kv => kv.2)

/-- `JobQueue.update_job`: store the record under its id. -/
def update_job (st : QueueState) (j : Job) : QueueState :=
  { st with jobs := setJob st.jobs j.id j }

/-- The record mutation performed by `JobQueue.update_progress` (both
count arguments default to 0 in the source). -/
def updateProgressRecord (job : Job) (progress : ℕ) (currentStep : String)
    (tweetsScraped retweetsScraped : ℕ) : Job :=
  { job with progress := progress, current_step := currentStep, tweets_scraped := tweetsScraped, retweets_scraped := retweetsScraped }

/-- `JobQueue.update_progress`: mutate the record, store it. -/
def update_progress (st : QueueState) (job : Job) (progress : ℕ)
    (currentStep : String) (tweetsScraped retweetsScraped : ℕ) : Job × QueueState :=
  let j := updateProgressRecord job progress currentStep tweetsScraped retweetsScraped
  (j, update_job st j)

/-- The record mutation performed by `JobQueue.complete_job`. -/
def completeJobRecord (job : Job) (analysis : String) (themes : List String)
    (highlighted : List HighlightedTweet) (tweetsScraped retweetsScraped : ℕ)
    (now : String) : Job :=
  { job with status := .completed, completed_at := some now, progress := 100, current_step := "Complete", analysis := analysis, themes := themes, highlighted_tweets := highlighted, tweets_scraped := tweetsScraped, retweets_scraped := retweetsScraped }

/-- `JobQueue.complete_job`. -/
def complete_job (st : QueueState) (job : Job) (analysis : String)
    (themes : List String) (highlighted : List HighlightedTweet)
    (tweetsScraped retweetsScraped : ℕ) (now : String) : Job × QueueState :=
  let j := completeJobRecord job analysis themes highlighted tweetsScraped retweetsScraped now
  (j, update_job st j)

/-- The record mutation performed by `JobQueue.fail_job`. -/
def failJobRecord (job : Job) (error : String) (now : String) : Job :=
  { job with status := .failed, completed_at := some now, current_step := "Failed", error := some error }

/-- `JobQueue.fail_job`. -/
def fail_job (st : QueueState) (job : Job) (error : String) (now : String) :
    Job × QueueState :=
  let j := failJobRecord job error now
  (j, update_job st j)

/-- `JobQueue.get_next_job`: `blpop` the pending list (None on timeout),
look the id up in the job hash, and — only when a record exists — mark it
running and store it.  A popped id whose record is missing is dropped. -/
def get_next_job (workerId : String) (now : String) (st : QueueState) :
    Option Job × QueueState :=
  match st.queue with
  | [] => (none, st)
  | jobId :: rest =>
    let st1 : QueueState := { st with queue := rest }
    match get_job st1 jobId with
    | none => (none, st1)
    | some job =>
      let j : Job :=
        { job with status := .running, started_at := some now, worker_id := some workerId, current_step := "Starting..." }
      (some j, update_job st1 j)

end Jobs

/-! ## `worker.py` — Worker.process_job -/

namespace Worker

open PyText

/-- The `getattr`-based record the worker reads off either scraper's tweet
objects (missing attributes fall back to their defaults). -/
structure RawTweet where
  id : String
  content : String
  timestamp : String
  url : String
  images : List String
  original_author : Option String
  is_retweet : Bool
deriving DecidableEq

/-- A search-scraper tweet as the worker reads it (`original_author` is not
an attribute of that dataclass, so `getattr` yields the `None` default). -/
def ofSearchTweet (t : SearchScraper.Tweet) : RawTweet :=
  { id := t.id, content := t.content, timestamp := t.timestamp, url := t.url, images := t.images, original_author := none, is_retweet := t.is_retweet }

/-- A timeline-scraper tweet as the worker reads it. -/
def ofTimelineTweet (t : TimelineScraper.Tweet) : RawTweet :=
  { id := t.id, content := t.content, timestamp := t.timestamp, url := t.url, images := t.images, original_author := some t.original_author, is_retweet := t.is_retweet }

/-- `url.split('/status/')[-1].split('?')[0]`. -/
def statusIdFromUrl (url : String) : String :=
  let parts := splitSep "/status/".toList url.toList
  let lastPart := (parts.getLast?).getD []
  String.mk (((splitSep ['?'] lastPart).head?).getD [])

/-- Build one indexed tweet dict (step 3 of `process_job`). -/
def toIndexed (idx : ℕ) (t : RawTweet) : IndexedTweet :=
  let tid := if t.id = "" then statusIdFromUrl t.url else t.id
  { index := idx, id := tid, text := t.content, date := t.timestamp, url := t.url, is_retweet := t.is_retweet, original_author := t.original_author, images := t.images, flagged := false, flag_reason := none }

/-- One flag as the worker reads it from the analysis result:
`flag_info.get("index")` (which may be absent) and
`flag_info.get("reason", "")`. -/
structure SpecFlag where
  index : Option ℤ := none
  reason : String := ""
deriving DecidableEq

/-- Modelled from the spec: the analysis capability the worker invokes
(`GeminiAnalyzer.analyze(indexed_tweets=…)` returning `summary` and
`flagged_indices`).  The analyzer variant `worker.py` builds against — one
whose result carries `{index, reason}` flags over the globally indexed
collection (spec §4.6, §8) — is not part of the snapshot (`app/analyzer.py`
is an earlier text-in/text-out variant), so its output shape is taken from
the spec and the call is passed in as an oracle. -/
structure SpecAnalysis where
  summary : String
  flagged : List SpecFlag
deriving DecidableEq

/-- The flag-merge loop of `process_job`: for each flag whose index is
present and in range, set `flagged`/`flag_reason` on the item at that
position. -/
def mergeFlags (indexed : List IndexedTweet) (flags : List SpecFlag) :
    List IndexedTweet :=
  flags.foldl (fun acc f =>
    match f.index with
    | none => acc
    | some i =>
      if 0 ≤ i ∧ i < (acc.length : ℤ) then
        match acc.get? i.toNat with
        | some t => acc.set i.toNat { t with flagged := true, flag_reason := some f.reason }
        | none => acc
      else acc) indexed

/-- Python's `str` comparison: lexicographic by code point. -/
def pyStrLeAux : List Char → List Char → Bool
  | [], _ => true
  | _ :: _, [] => false
  | x :: xs, y :: ys =>
    if x.toNat < y.toNat then true
    else if y.toNat < x.toNat then false
    else pyStrLeAux xs ys

/-- `a <= b` on Python strings. -/
def pyStrLe (a b : String) : Bool := pyStrLeAux a.toList b.toList

/-- The sort key comparison `key=lambda t: (not t["flagged"], t.get("date",""))`:
flagged first (False sorts before True), then by date ascending. -/
def sortedKeyLe (a b : IndexedTweet) : Bool :=
  match !a.flagged, !b.flagged with
  | false, true => true
  | true, false => false
  | _, _ => pyStrLe a.date b.date

/-- The legacy `highlighted_tweets` list: the flagged items, in sorted
order. -/
def highlightedOf (sorted : List IndexedTweet) : List Jobs.HighlightedTweet :=
  (sorted.filter (fun t => t.flagged)).map (fun t =>
    { text := t.text, reason := t.flag_reason, url := t.url, images := t.images })

/-- Modelled from the spec: the worker-facing `complete_job`, which, with
the fields `app/jobs.py` writes, also stores the merged, sorted item
collection (`all_tweets=sorted_tweets` in `worker.py`; spec §4.5/§3). -/
def complete_job_with_items (st : Jobs.QueueState) (job : Jobs.Job)
    (analysis : String) (themes : List String)
    (highlighted : List Jobs.HighlightedTweet)
    (tweetsScraped retweetsScraped : ℕ)
    (allTweets : List IndexedTweet) (now : String) : Jobs.QueueState :=
  let j := { Jobs.completeJobRecord job analysis themes highlighted tweetsScraped retweetsScraped now with all_tweets := allTweets }
  Jobs.update_job st j

/-- The external world as `process_job` sees it: the two scrapers' fetch
and reset oracles, the analysis capability, the clock, and loop fuel. -/
structure WorkerEnv where
  tEnv : ℕ → Nitter.FetchOutcome TimelineScraper.Tweet
  tResetEnv : ℕ → Bool
  sEnv : ℕ → Nitter.FetchOutcome SearchScraper.Tweet
  sResetEnv : ℕ → Bool
  analyze : List IndexedTweet → Option String → SpecAnalysis
  nowDay : ℤ
  now : String
  fuel : ℕ

/-- `Worker.process_job`: scrape retweets from the timeline (if requested),
scrape originals/replies via search (if requested), fail when nothing was
collected, build the globally indexed collection, run the analysis (with
the VPN dropped around it), merge the flags back by index, sort
flagged-first-then-by-date, and complete the job with the merged
collection.  (The explicit failure path `fail_job` on an empty collection
is the one modelled; the blanket `except` of the source catches exceptions
that a total embedding does not produce.) -/
def process_job (E : WorkerEnv) (st0 : Jobs.QueueState) (job0 : Jobs.Job) :
    Jobs.QueueState :=
  -- Step 1: retweets from the timeline.
  let s1 : Jobs.Job × Jobs.QueueState × List RawTweet × ℕ :=
    if job0.include_retweets then
      let r1 := Jobs.update_progress st0 job0 10 "Scraping retweets..." 0 0
      let rt := TimelineScraper.scrape_retweets E.tEnv E.tResetEnv 1000 5000
        job0.username E.fuel
      let rc := rt.tweets.length
      let r2 := Jobs.update_progress r1.2 r1.1 30
        ("Got " ++ toString rc ++ " retweets") 0 rc
      (r2.1, r2.2, rt.tweets.map ofTimelineTweet, rc)
    else (job0, st0, [], 0)
  match s1 with
  | (job1, st1, rawRetweets, retweetsCount) =>
    -- Step 2: tweets/replies via search.
    let s2 : Jobs.Job × Jobs.QueueState × List RawTweet × ℕ :=
      if job1.include_tweets || job1.include_replies then
        let r3 := Jobs.update_progress st1 job1 40 "Scraping tweets..." 0 0
        let sr := SearchScraper.scrape_user E.sEnv E.sResetEnv 50 5000 30
          job1.username job1.start_date job1.end_date E.nowDay
          false job1.include_replies E.fuel
        let tc := sr.total_scraped
        let r4 := Jobs.update_progress r3.2 r3.1 60
          ("Got " ++ toString tc ++ " tweets") tc retweetsCount
        (r4.1, r4.2, sr.tweets.map ofSearchTweet, tc)
      else (job1, st1, [], 0)
    match s2 with
    | (job2, st2, rawSearch, tweetsCount) =>
      let rawTweets := rawRetweets ++ rawSearch
      if rawTweets.isEmpty then
        (Jobs.fail_job st2 job2 "No tweets found" E.now).2
      else
        -- Step 3: indexed collection, analysis, merge, sort, complete.
        let r5 := Jobs.update_progress st2 job2 70 "Analyzing with Gemini..." 0 0
        let indexed := rawTweets.enum.map (fun p => toIndexed p.1 p.2)
        let ar := E.analyze indexed job0.custom_prompt
        let r6 := Jobs.update_progress r5.2 r5.1 90 "Finalizing..." 0 0
        let merged := mergeFlags indexed ar.flagged
        let sorted := PyText.pySorted sortedKeyLe merged
        let highlighted := highlightedOf sorted
        complete_job_with_items r6.2 r6.1 ar.summary [] highlighted
          tweetsCount retweetsCount sorted E.now

end Worker

/-! ## Concrete scenario inputs used by the theorems -/

namespace Scenario

/-- A plain original post, as the search scraper parses one. -/
def sTweet (tid : String) (date : String) : SearchScraper.Tweet :=
  { id := tid, content := "c" ++ tid, timestamp := date, url := "https://twitter.com/alice/status/" ++ tid }

/-- First scripted search page: 3 originals, a cursor to page 2. -/
def c1page1 : Nitter.Page SearchScraper.Tweet :=
  { status := 200, items := [some (sTweet "101" "2024-01-05"), some (sTweet "102" "2024-01-08"), some (sTweet "103" "2024-01-11")], nextCursor := some "cur1" }

/-- Second scripted search page: 2 more originals, no further cursor. -/
def c1page2 : Nitter.Page SearchScraper.Tweet :=
  { status := 200, items := [some (sTweet "104" "2024-01-17"), some (sTweet "105" "2024-01-20")], nextCursor := none }

/-- The scripted proxy for the end-to-end scenario: 2 pages, 5 unique
originals, no rate limiting, no reposts. -/
def c1SearchEnv : ℕ → Nitter.FetchOutcome SearchScraper.Tweet
  | 0 => .page c1page1
  | 1 => .page c1page2
  | _ => .timeout

/-- The scripted analysis capability: a summary plus the single flag
`{"index": 2, "reason": "x"}`. -/
def c1Analysis : List Worker.IndexedTweet → Option String → Worker.SpecAnalysis :=
  fun _ _ => { summary := "S", flagged := [{ index := some 2, reason := "x" }] }

/-- The end-to-end worker environment. -/
def c1Env : Worker.WorkerEnv :=
  { tEnv := fun _ => .timeout, tResetEnv := fun _ => false, sEnv := c1SearchEnv, sResetEnv := fun _ => false, analyze := c1Analysis, nowDay := 1000, now := "2024-02-01T00:00:00", fuel := 20 }

/-- The submitted job: identity `alice`, range 2024-01-01..2024-01-31
(days 0 and 30), originals only, already claimed by a worker. -/
def c1job : Jobs.Job :=
  { id := "j1", username := "alice", status := .running, start_date := some 0, end_date := some 30, include_tweets := true, include_retweets := false, include_replies := false, started_at := some "2024-02-01T00:00:00", worker_id := some "w1", created_at := "t0" }

/-- The job store holding the claimed job. -/
def c1store : Jobs.QueueState := { jobs := [("j1", c1job)], queue := [] }

/-- A job that is already terminal (`completed`), with results. -/
def c2job : Jobs.Job :=
  { id := "a", username := "u", status := .completed, progress := 100, current_step := "Complete", tweets_scraped := 7, analysis := "done", completed_at := some "t1", created_at := "t0" }

/-- A store holding only the completed job. -/
def c2store : Jobs.QueueState := { jobs := [("a", c2job)], queue := [] }

/-- A timeline page with no items at all (zero new retweets) but a
pagination cursor. -/
def tlEmptyPage : Nitter.Page TimelineScraper.Tweet :=
  { status := 200, items := [], nextCursor := some "more" }

/-- A proxy that serves empty cursored timeline pages forever. -/
def tlEmptyEnv : ℕ → Nitter.FetchOutcome TimelineScraper.Tweet :=
  fun _ => .page tlEmptyPage

/-- A search proxy that serves ok pages with no items (zero new posts) and
a cursor, forever. -/
def sEmptyEnv : ℕ → Nitter.FetchOutcome SearchScraper.Tweet :=
  fun _ => .page { status := 200, items := [], nextCursor := some "more" }

/-- A profile page with no items but a pagination cursor. -/
def profEmptyPage : Nitter.Page ProfileScraper.Tweet :=
  { status := 200, items := [], nextCursor := some "more" }

/-- A proxy that serves empty cursored profile pages forever. -/
def profEmptyEnv : ℕ → Nitter.FetchOutcome ProfileScraper.Tweet :=
  fun _ => .page profEmptyPage

/-- A bare 429 page. -/
def rlPage (τ : Type) : Nitter.Page τ := { status := 429 }

/-- Search script for the recovery claims: a 429, then an ok page with one
new post and no cursor. -/
def c6SearchEnv : ℕ → Nitter.FetchOutcome SearchScraper.Tweet
  | 0 => .page (rlPage _)
  | 1 => .page { status := 200, items := [some (sTweet "7" "d")], nextCursor := none }
  | _ => .timeout

/-- Timeline script for the recovery claims: a 429, then an ok page with
one new retweet and no cursor. -/
def c6TimelineEnv : ℕ → Nitter.FetchOutcome TimelineScraper.Tweet
  | 0 => .page (rlPage _)
  | 1 => .page { status := 200, items := [some { id := "9", content := "r", timestamp := "d" }], nextCursor := none }
  | _ => .timeout

/-- Search script for the identity-rotation claim: two 429s in a row, then
an ok empty page. -/
def c7SearchEnv : ℕ → Nitter.FetchOutcome SearchScraper.Tweet
  | 0 => .page (rlPage _)
  | 1 => .page (rlPage _)
  | _ => .page { status := 200, items := [], nextCursor := none }

/-- A queue whose single pending id has no job record. -/
def c10store : Jobs.QueueState := { jobs := [], queue := ["ghost"] }

end Scenario

/-! # Part II — Theorems -/

namespace PyText

theorem splitSepAux_ne_nil (c : Char) (cs : List Char) (s acc : List Char) :
    splitSepAux c cs s acc ≠ [] := by
  induction s, acc using splitSepAux.induct c cs with
  | case1 acc => simp [splitSepAux]
  | case2 x rest acc h ih => simp only [splitSepAux, if_pos h]; simp
  | case3 x rest acc h ih => simp [splitSepAux, h]; exact ih

theorem splitSep_ne_nil (sep s : List Char) : splitSep sep s ≠ [] := by
  cases sep with
  | nil => simp [splitSep]
  | cons c cs => exact splitSepAux_ne_nil c cs s []

/-- Joining the fields back with the separator restores the scanned text. -/
theorem intercalate_splitSepAux (c : Char) (cs : List Char) (s acc : List Char) :
    List.intercalate (c :: cs) (splitSepAux c cs s acc) = acc.reverse ++ s := by
  induction s, acc using splitSepAux.induct c cs with
  | case1 acc => simp [splitSepAux, List.intercalate]
  | case2 x rest acc h ih =>
    simp only [splitSepAux, if_pos h]
    have hpre : (c :: cs) <+: (x :: rest) := List.isPrefixOf_iff_prefix.mp h
    obtain ⟨t, ht⟩ := hpre
    have hdrop : (x :: rest).drop (c :: cs).length = t := by
      rw [← ht]; exact List.drop_left (c :: cs) t
    rw [hdrop] at ih ⊢
    have hcons : List.intercalate (c :: cs) (acc.reverse :: splitSepAux c cs t [])
        = acc.reverse ++ (c :: cs) ++ List.intercalate (c :: cs) (splitSepAux c cs t []) := by
      have hne := splitSepAux_ne_nil c cs t ([] : List Char)
      cases hsplit : splitSepAux c cs t [] with
      | nil => exact absurd hsplit hne
      | cons y ys => simp [List.intercalate, hsplit]
    rw [hcons, ih]
    simp [← ht]
  | case3 x rest acc h ih =>
    simp only [splitSepAux, if_neg h]
    rw [ih]; simp

theorem intercalate_splitSep (sep s : List Char) :
    List.intercalate sep (splitSep sep s) = s := by
  cases sep with
  | nil => simp [splitSep, List.intercalate]
  | cons c cs => simpa using intercalate_splitSepAux c cs s []

theorem not_isPrefixOf_of_head_ne {c x : Char} (cs rest : List Char) (hx : x ≠ c) :
    ¬ (c :: cs).isPrefixOf (x :: rest) = true := by
  intro hp
  obtain ⟨t, ht⟩ := List.isPrefixOf_iff_prefix.mp hp
  have hcx : c = x := by
    have := congrArg (fun l => l.head?) ht
    simpa using this
  exact hx hcx.symm

/-- If the head of the separator never occurs in `s`, scanning finds no cut. -/
theorem splitSepAux_of_not_mem (c : Char) (cs : List Char) (s : List Char)
    (h : ∀ x ∈ s, x ≠ c) :
    ∀ acc, splitSepAux c cs s acc = [acc.reverse ++ s] := by
  induction s with
  | nil => intro acc; simp [splitSepAux]
  | cons x rest ih =>
    intro acc
    have hx : x ≠ c := h x (by simp)
    have hnp := not_isPrefixOf_of_head_ne cs rest hx
    simp only [splitSepAux, if_neg hnp]
    rw [ih (fun y hy => h y (by simp [hy])) (x :: acc)]
    simp

/-- Splitting text that starts with a separator-free field `t` followed by
the separator cuts exactly at that separator. -/
theorem splitSepAux_append (c : Char) (cs : List Char) (t r : List Char)
    (h : ∀ x ∈ t, x ≠ c) :
    ∀ acc, splitSepAux c cs (t ++ (c :: cs) ++ r) acc
      = (acc.reverse ++ t) :: splitSepAux c cs r [] := by
  induction t with
  | nil =>
    intro acc
    have hpre : (c :: cs).isPrefixOf (c :: (cs ++ r)) = true := by
      rw [List.isPrefixOf_iff_prefix]; exact ⟨r, by simp⟩
    have hshape : ([] : List Char) ++ (c :: cs) ++ r = c :: (cs ++ r) := by simp
    rw [hshape, splitSepAux, if_pos hpre]
    have hdrop : ((c :: (cs ++ r))).drop (c :: cs).length = r := by
      have hd := List.drop_left (c :: cs) r
      simp only [List.cons_append] at hd
      exact hd
    rw [hdrop]
    simp
  | cons x t' ih =>
    intro acc
    have hx : x ≠ c := h x (by simp)
    have hnp := not_isPrefixOf_of_head_ne cs (t' ++ (c :: cs) ++ r) hx
    have hshape : (x :: t') ++ (c :: cs) ++ r = x :: (t' ++ (c :: cs) ++ r) := by simp
    rw [hshape, splitSepAux, if_neg hnp]
    rw [ih (fun y hy => h y (by simp [hy])) (x :: acc)]
    simp

end PyText

namespace Analyzer

open PyText

/-- The greedy loop only regroups the records: flattening the groups gives
back `cur ++ ts`. -/
theorem chunkGroups_flatten (m : ℕ) :
    ∀ (ts cur : List (List Char)) (curLen : ℕ),
      (chunkGroups m ts cur curLen).flatten = cur ++ ts := by
  intro ts
  induction ts with
  | nil =>
    intro cur curLen
    by_cases h : cur.isEmpty
    · simp [chunkGroups, h, List.isEmpty_iff.mp h]
    · simp [chunkGroups, h]
  | cons t ts ih =>
    intro cur curLen
    simp only [chunkGroups]
    by_cases hov : m < curLen + (t.length + 5)
    · rw [if_pos hov]
      by_cases hcur : cur.isEmpty
      · simp [hcur, ih, List.isEmpty_iff.mp hcur]
      · simp [hcur, ih]
    · rw [if_neg hov, ih]
      simp

/-- The greedy loop never emits an empty group. -/
theorem chunkGroups_ne_nil (m : ℕ) :
    ∀ (ts cur : List (List Char)) (curLen : ℕ),
      ∀ g ∈ chunkGroups m ts cur curLen, g ≠ [] := by
  intro ts
  induction ts with
  | nil =>
    intro cur curLen g hg
    by_cases h : cur.isEmpty
    · simp [chunkGroups, h] at hg
    · simp [chunkGroups, h] at hg
      subst hg
      exact fun hnil => by simp [hnil] at h
  | cons t ts ih =>
    intro cur curLen g hg
    simp only [chunkGroups] at hg
    by_cases hov : m < curLen + (t.length + 5)
    · rw [if_pos hov] at hg
      rcases List.mem_append.mp hg with hflush | hrec
      · by_cases hcur : cur.isEmpty
        · simp [hcur] at hflush
        · simp [hcur] at hflush
          subst hflush
          exact fun hnil => by simp [hnil] at hcur
      · exact ih _ _ g hrec
    · rw [if_neg hov] at hg
      exact ih _ _ g hg

/-- Every group of two or more records the greedy loop emits weighs at most
`max_chars` (a lone oversized record is the only way past the budget). -/
theorem chunkGroups_weight (m : ℕ) :
    ∀ (ts cur : List (List Char)) (curLen : ℕ),
      curLen = weight cur → (2 ≤ cur.length → weight cur ≤ m) →
      ∀ g ∈ chunkGroups m ts cur curLen, 2 ≤ g.length → weight g ≤ m := by
  intro ts
  induction ts with
  | nil =>
    intro cur curLen _ hbound g hg hlen
    by_cases h : cur.isEmpty
    · simp [chunkGroups, h] at hg
    · simp [chunkGroups, h] at hg
      subst hg
      exact hbound hlen
  | cons t ts ih =>
    intro cur curLen hcurlen hbound g hg hlen
    simp only [chunkGroups] at hg
    by_cases hov : m < curLen + (t.length + 5)
    · rw [if_pos hov] at hg
      rcases List.mem_append.mp hg with hflush | hrec
      · by_cases hcur : cur.isEmpty
        · simp [hcur] at hflush
        · simp [hcur] at hflush
          subst hflush
          exact hbound hlen
      · exact ih [t] (t.length + 5) (by simp [weight]) (by simp) g hrec hlen
    · rw [if_neg hov] at hg
      refine ih (cur ++ [t]) (curLen + (t.length + 5)) ?_ ?_ g hg hlen
      · simp [weight, hcurlen]
      · intro _
        have hw : weight (cur ++ [t]) = curLen + (t.length + 5) := by
          simp [weight, hcurlen]
        omega

/-- A joined group is no longer than its weighted size. -/
theorem length_intercalate_le_weight (g : List (List Char)) :
    (List.intercalate tweetSep g).length ≤ weight g := by
  induction g with
  | nil => simp [List.intercalate, weight]
  | cons x gs ih =>
    cases gs with
    | nil => simp [List.intercalate, weight]
    | cons y ys =>
      have hexp : List.intercalate tweetSep (x :: y :: ys)
          = x ++ tweetSep ++ List.intercalate tweetSep (y :: ys) := by
        simp [List.intercalate]
      rw [hexp]
      have hw : weight (x :: y :: ys) = (x.length + 5) + weight (y :: ys) := by
        simp [weight]
      have hsep : tweetSep.length = 5 := rfl
      rw [hw]
      have hlen : (x ++ tweetSep ++ List.intercalate tweetSep (y :: ys)).length
          = x.length + 5 + (List.intercalate tweetSep (y :: ys)).length := by
        simp [List.length_append, hsep]
        omega
      rw [hlen]
      omega

theorem intercalate_singleton (sep x : List Char) :
    List.intercalate sep [x] = x := by
  simp [List.intercalate]

/-- Splitting newline-free text on `'\n---\n'` yields the text itself. -/
theorem splitSep_tweetSep_no_nl (s : List Char) (h : ∀ x ∈ s, x ≠ '\n') :
    splitSep tweetSep s = [s] := by
  have := splitSepAux_of_not_mem '\n' ['-', '-', '-', '\n'] s h []
  simpa [splitSep, tweetSep] using this

/-- Splitting text that starts with a newline-free record followed by
`'\n---\n'` cuts exactly at the separator. -/
theorem splitSep_tweetSep_append (t r : List Char) (h : ∀ x ∈ t, x ≠ '\n') :
    splitSep tweetSep (t ++ tweetSep ++ r) = t :: splitSep tweetSep r := by
  have := splitSepAux_append '\n' ['-', '-', '-', '\n'] t r h []
  simpa [splitSep, tweetSep] using this

theorem tItem_no_nl : ∀ x ∈ tItem, x ≠ '\n' := by
  intro x hx
  rw [List.eq_of_mem_replicate hx]
  decide

theorem tItem_len : tItem.length = 1800000 := by
  rw [tItem, List.length_replicate]

theorem C8big_split :
    splitSep tweetSep C8big = [tItem, tItem, tItem, tItem, tItem] := by
  rw [C8big,
    splitSep_tweetSep_append _ _ tItem_no_nl,
    splitSep_tweetSep_append _ _ tItem_no_nl,
    splitSep_tweetSep_append _ _ tItem_no_nl,
    splitSep_tweetSep_append _ _ tItem_no_nl,
    splitSep_tweetSep_no_nl _ tItem_no_nl]

theorem tweetSep_len : tweetSep.length = 5 := rfl

theorem C8big_len : C8big.length = 9000020 := by
  rw [C8big]
  rw [List.length_append, List.length_append, List.length_append,
    List.length_append, List.length_append, List.length_append,
    List.length_append, List.length_append]
  rw [tItem_len, tweetSep_len]

theorem C8big_not_blank : isBlank C8big = false := by
  unfold isBlank
  rw [List.all_eq_false]
  refine ⟨'a', ?_, by decide⟩
  have : 'a' ∈ tItem := by
    rw [tItem]
    exact List.mem_replicate.mpr (by decide)
  rw [C8big]
  simp [this]

theorem C8big_groups :
    chunkGroups maxChars [tItem, tItem, tItem, tItem, tItem] [] 0
      = [[tItem], [tItem], [tItem], [tItem], [tItem]] := by
  simp [chunkGroups, tItem_len, maxChars, MAX_TOKENS_PER_CHUNK, CHARS_PER_TOKEN]

theorem C8big_chunks :
    chunk_tweets C8big = [tItem, tItem, tItem, tItem, tItem] := by
  rw [chunk_tweets, if_neg (by rw [C8big_len]; decide), C8big_split, C8big_groups]
  simp [intercalate_singleton]

theorem C8big_tokens : estimateTokens C8big = 2250005 := by
  rw [estimateTokens, C8big_len]
  decide

theorem C9big_len : C9big.length = 3000001 := by
  rw [C9big, List.length_replicate]

theorem C9big_no_nl : ∀ x ∈ C9big, x ≠ '\n' := by
  intro x hx
  rw [List.eq_of_mem_replicate hx]
  decide

theorem C9big_chunks : chunk_tweets C9big = [C9big] := by
  rw [chunk_tweets, if_neg (by rw [C9big_len]; decide),
    splitSep_tweetSep_no_nl _ C9big_no_nl]
  have hg : chunkGroups maxChars [C9big] [] 0 = [[C9big]] := by
    simp [chunkGroups, C9big_len, maxChars, MAX_TOKENS_PER_CHUNK, CHARS_PER_TOKEN]
  rw [hg]
  simp [intercalate_singleton]

end Analyzer

namespace Analyzer

/-- `analyze` on a non-blank, within-budget input takes the single-call
branch. -/
theorem analyzeCalls_under (compiled : List Char)
    (hb : PyText.isBlank compiled = false)
    (hle : estimateTokens compiled ≤ MAX_TOKENS_PER_CHUNK) :
    analyzeCalls compiled = [GeminiCall.single compiled] := by
  rw [analyzeCalls, if_neg (by simp [hb]), if_pos hle]

/-- `analyze` on a non-blank, over-budget input takes the multi-chunk
branch: one numbered call per chunk, then one synthesis call. -/
theorem analyzeCalls_over (compiled : List Char)
    (hb : PyText.isBlank compiled = false)
    (hover : MAX_TOKENS_PER_CHUNK < estimateTokens compiled) :
    analyzeCalls compiled
      = (chunk_tweets compiled).enum.map
          (fun p => GeminiCall.chunk (p.1 + 1) (chunk_tweets compiled).length p.2)
        ++ [GeminiCall.synthesis (chunk_tweets compiled).length] := by
  rw [analyzeCalls, if_neg (by simp [hb]), if_neg (by omega)]

end Analyzer

/-- C8, counterexample: the scripted input `C8big` (five 1 800 000-character
records, 2 250 005 estimated tokens, 3.0× the 750 000-token budget, so
comfortably over budget) makes `analyze` issue 6 completion calls — 5 chunk
calls plus 1 synthesis call — while the claim's `ceil(size / chunk_budget)`
chunk calls plus one synthesis call is `4 + 1 = 5`: greedy packing of
records that pairwise overflow a chunk emits more chunks than
`ceil(size / budget)`. -/
theorem claim_C8_counterexample :
    Analyzer.MAX_TOKENS_PER_CHUNK < Analyzer.estimateTokens Analyzer.C8big ∧
    (Analyzer.analyzeCalls Analyzer.C8big).length = 6 ∧
    ((Analyzer.estimateTokens Analyzer.C8big + (Analyzer.MAX_TOKENS_PER_CHUNK - 1))
        / Analyzer.MAX_TOKENS_PER_CHUNK) + 1 = 5 ∧
    (6 : ℕ) ≠ 5 := by
  have hover : Analyzer.MAX_TOKENS_PER_CHUNK < Analyzer.estimateTokens Analyzer.C8big := by
    rw [Analyzer.C8big_tokens]; decide
  refine ⟨hover, ?_, ?_, by decide⟩
  · rw [Analyzer.analyzeCalls_over _ Analyzer.C8big_not_blank hover,
      Analyzer.C8big_chunks]
    decide
  · rw [Analyzer.C8big_tokens]
    decide

/-- C8 (amended): for every non-blank input whose estimated size is at or
under the per-chunk token budget, `GeminiAnalyzer.analyze` issues exactly
one completion call; for every non-blank input over budget it issues
exactly one call per chunk of the greedy partition (numbered `k of n`)
plus exactly one final synthesis call — `(number of greedy chunks) + 1`
calls in total, which can exceed `ceil(size / chunk_budget) + 1`.  (A blank
input issues no call at all: `analyze` returns before contacting the
model.) -/
theorem claim_C8_amended :
    (∀ compiled : List Char, PyText.isBlank compiled = false →
      Analyzer.estimateTokens compiled ≤ Analyzer.MAX_TOKENS_PER_CHUNK →
      Analyzer.analyzeCalls compiled = [Analyzer.GeminiCall.single compiled]) ∧
    (∀ compiled : List Char, PyText.isBlank compiled = false →
      Analyzer.MAX_TOKENS_PER_CHUNK < Analyzer.estimateTokens compiled →
      Analyzer.analyzeCalls compiled
        = (Analyzer.chunk_tweets compiled).enum.map
            (fun p => Analyzer.GeminiCall.chunk (p.1 + 1)
              (Analyzer.chunk_tweets compiled).length p.2)
          ++ [Analyzer.GeminiCall.synthesis (Analyzer.chunk_tweets compiled).length] ∧
      (Analyzer.analyzeCalls compiled).length
        = (Analyzer.chunk_tweets compiled).length + 1) := by
  constructor
  · exact fun compiled hb hle => Analyzer.analyzeCalls_under compiled hb hle
  · intro compiled hb hover
    have h := Analyzer.analyzeCalls_over compiled hb hover
    refine ⟨h, ?_⟩
    rw [h]
    simp

/-- Witness for the amended C8 at concrete inputs: the two-character
non-blank input `"hi"` is under budget and issues exactly one call; `C8big`
is over budget and issues one call per chunk plus one synthesis call. -/
theorem claim_C8_amended_witness :
    (PyText.isBlank ['h', 'i'] = false ∧
      Analyzer.estimateTokens ['h', 'i'] ≤ Analyzer.MAX_TOKENS_PER_CHUNK ∧
      Analyzer.analyzeCalls ['h', 'i'] = [Analyzer.GeminiCall.single ['h', 'i']]) ∧
    (PyText.isBlank Analyzer.C8big = false ∧
      Analyzer.MAX_TOKENS_PER_CHUNK < Analyzer.estimateTokens Analyzer.C8big ∧
      (Analyzer.analyzeCalls Analyzer.C8big).length
        = (Analyzer.chunk_tweets Analyzer.C8big).length + 1) := by
  constructor
  · exact ⟨by decide, by decide, claim_C8_amended.1 _ (by decide) (by decide)⟩
  · have hover : Analyzer.MAX_TOKENS_PER_CHUNK < Analyzer.estimateTokens Analyzer.C8big := by
      rw [Analyzer.C8big_tokens]; decide
    exact ⟨Analyzer.C8big_not_blank, hover,
      (claim_C8_amended.2 _ Analyzer.C8big_not_blank hover).2⟩

/-- C9, counterexample: a single separator-free 3 000 001-character record
becomes one chunk of 3 000 001 characters — over the
`MAX_TOKENS_PER_CHUNK * CHARS_PER_TOKEN = 3 000 000` chunk budget: the
bound "each chunk has size at most the configured chunk budget" fails for
an item that alone exceeds the budget. -/
theorem claim_C9_counterexample :
    Analyzer.chunk_tweets Analyzer.C9big = [Analyzer.C9big] ∧
    Analyzer.maxChars < Analyzer.C9big.length := by
  exact ⟨Analyzer.C9big_chunks, by rw [Analyzer.C9big_len]; decide⟩

/-- C9 (amended): for every input string, the chunks of
`GeminiAnalyzer._chunk_tweets` are exactly the separator-joins of a
partition of the split records into consecutive non-empty groups — so a
chunk boundary falls only at an item separator and no item's formatted
record is split across two chunks — and every chunk containing two or more
records has size at most the configured chunk budget; only a chunk that is
one single oversized record can exceed it. -/
theorem claim_C9_amended :
    ∀ compiled : List Char, ∃ groups : List (List (List Char)),
      Analyzer.chunk_tweets compiled = groups.map (List.intercalate Analyzer.tweetSep) ∧
      groups.flatten = PyText.splitSep Analyzer.tweetSep compiled ∧
      (∀ g ∈ groups, g ≠ []) ∧
      (∀ g ∈ groups, 2 ≤ g.length →
        (List.intercalate Analyzer.tweetSep g).length ≤ Analyzer.maxChars) := by
  intro compiled
  by_cases h : compiled.length ≤ Analyzer.maxChars
  · refine ⟨[PyText.splitSep Analyzer.tweetSep compiled], ?_, by simp, ?_, ?_⟩
    · rw [Analyzer.chunk_tweets, if_pos h]
      simp [PyText.intercalate_splitSep]
    · intro g hg
      simp at hg
      subst hg
      exact PyText.splitSep_ne_nil _ _
    · intro g hg _
      simp at hg
      subst hg
      rw [PyText.intercalate_splitSep]
      exact h
  · refine ⟨Analyzer.chunkGroups Analyzer.maxChars
      (PyText.splitSep Analyzer.tweetSep compiled) [] 0, ?_, ?_, ?_, ?_⟩
    · rw [Analyzer.chunk_tweets, if_neg h]
    · rw [Analyzer.chunkGroups_flatten]
      simp
    · exact Analyzer.chunkGroups_ne_nil _ _ _ _
    · intro g hg hlen
      refine le_trans (Analyzer.length_intercalate_le_weight g) ?_
      exact Analyzer.chunkGroups_weight _ _ _ _ (by simp [Analyzer.weight]) (by simp) g hg hlen

namespace SearchScraper

/-- With a positive window size and enough fuel, the generated windows tile
the requested span. -/
theorem generateDateRangesAux_chained (cd : ℕ) (hcd : 0 < cd) :
    ∀ (fuel : ℕ) (cur endD : ℤ), (endD - cur).toNat ≤ fuel → cur ≤ endD →
      Chained cur (generateDateRangesAux cd fuel cur endD) endD := by
  intro fuel
  induction fuel with
  | zero =>
    intro cur endD hfuel hle
    have : cur = endD := by omega
    simp [generateDateRangesAux, Chained, this]
  | succ fuel ih =>
    intro cur endD hfuel hle
    by_cases hlt : cur < endD
    · rw [generateDateRangesAux, if_pos hlt]
      refine ⟨rfl, ?_, ?_⟩
      · have : cur < cur + (cd : ℤ) := by omega
        exact lt_min this hlt
      · exact ih (min (cur + (cd : ℤ)) endD) endD (by omega) (by omega)
    · have : cur = endD := by omega
      rw [generateDateRangesAux, if_neg hlt]
      simp [Chained, this]

theorem chained_bounds {a b : ℤ} :
    ∀ {l : List (ℤ × ℤ)}, Chained a l b →
      a ≤ b ∧ ∀ p ∈ l, a ≤ p.1 ∧ p.1 < p.2 ∧ p.2 ≤ b := by
  intro l
  induction l generalizing a with
  | nil => intro h; simp [Chained] at h; simp [h]
  | cons p ps ih =>
    intro h
    obtain ⟨h1, h2, h3⟩ := h
    obtain ⟨hab, hmem⟩ := ih h3
    refine ⟨by omega, ?_⟩
    intro q hq
    rcases List.mem_cons.mp hq with hq | hq
    · subst hq; omega
    · have := hmem q hq
      omega

theorem chained_pairwise {a b : ℤ} :
    ∀ {l : List (ℤ × ℤ)}, Chained a l b → l.Pairwise (fun p q => p.2 ≤ q.1) := by
  intro l
  induction l generalizing a with
  | nil => intro _; simp
  | cons p ps ih =>
    intro h
    obtain ⟨h1, h2, h3⟩ := h
    refine List.pairwise_cons.mpr ⟨?_, ih h3⟩
    intro q hq
    have := (chained_bounds h3).2 q hq
    omega

theorem chained_union {a b : ℤ} :
    ∀ {l : List (ℤ × ℤ)}, Chained a l b →
      (⋃ p ∈ l, Set.Ico p.1 p.2) = Set.Ico a b := by
  intro l
  induction l generalizing a with
  | nil => intro h; simp [Chained] at h; simp [h]
  | cons p ps ih =>
    intro h
    obtain ⟨h1, h2, h3⟩ := h
    have hun : (⋃ q ∈ p :: ps, Set.Ico q.1 q.2)
        = Set.Ico p.1 p.2 ∪ ⋃ q ∈ ps, Set.Ico q.1 q.2 := by
      simp
    rw [hun, ih h3, h1]
    exact Set.Ico_union_Ico_eq_Ico (by omega) (chained_bounds h3).1

theorem chained_head_last {a b : ℤ} :
    ∀ {l : List (ℤ × ℤ)}, Chained a l b → l ≠ [] →
      (l.head?.map Prod.fst = some a ∧ l.getLast?.map Prod.snd = some b) := by
  intro l
  induction l generalizing a with
  | nil => intro _ h; exact absurd rfl h
  | cons p ps ih =>
    intro h _
    obtain ⟨h1, h2, h3⟩ := h
    constructor
    · simp [h1]
    · cases hps : ps with
      | nil =>
        subst hps
        simp [Chained] at h3
        simp [h3]
      | cons q qs =>
        subst hps
        rw [List.getLast?_cons_cons]
        exact (ih h3 (by simp)).2

theorem generateDateRanges_chained (cd : ℕ) (hcd : 0 < cd) (s e : ℤ) (hse : s ≤ e) :
    Chained s (generateDateRanges cd s e) e := by
  exact generateDateRangesAux_chained cd hcd _ s e (by omega) hse

end SearchScraper

/-- C4: for every span `start < end` and positive window size, the windows
of `NitterSearchScraper._generate_date_ranges` are non-degenerate, start at
`start`, end at `end`, chain without gap, are pairwise disjoint as
half-open day ranges, and their union is exactly the requested span
`[start, end)`; `scrape_user` iterates exactly their reversal
(`date_ranges.reverse()`), in which every later window lies strictly
before every earlier one — newest first. -/
theorem claim_C4_windows (chunkDays : ℕ) (s e : ℤ)
    (hcd : 0 < chunkDays) (hse : s < e) :
    (SearchScraper.generateDateRanges chunkDays s e ≠ []) ∧
    ((SearchScraper.generateDateRanges chunkDays s e).head?.map Prod.fst = some s) ∧
    ((SearchScraper.generateDateRanges chunkDays s e).getLast?.map Prod.snd = some e) ∧
    (∀ p ∈ SearchScraper.generateDateRanges chunkDays s e, p.1 < p.2) ∧
    (SearchScraper.generateDateRanges chunkDays s e).Pairwise
      (fun p q => Disjoint (Set.Ico p.1 p.2) (Set.Ico q.1 q.2)) ∧
    ((⋃ p ∈ SearchScraper.generateDateRanges chunkDays s e, Set.Ico p.1 p.2)
      = Set.Ico s e) ∧
    ((SearchScraper.generateDateRanges chunkDays s e).reverse.Pairwise
      (fun p q => q.2 ≤ p.1)) := by
  have hch := SearchScraper.generateDateRanges_chained chunkDays hcd s e (le_of_lt hse)
  have hbounds := SearchScraper.chained_bounds hch
  have hpw := SearchScraper.chained_pairwise hch
  refine ⟨?_, ?_, ?_, ?_, ?_, ?_, ?_⟩
  · intro hnil
    rw [hnil] at hch
    simp [SearchScraper.Chained] at hch
    omega
  · refine (SearchScraper.chained_head_last hch ?_).1
    intro hnil
    rw [hnil] at hch
    simp [SearchScraper.Chained] at hch
    omega
  · refine (SearchScraper.chained_head_last hch ?_).2
    intro hnil
    rw [hnil] at hch
    simp [SearchScraper.Chained] at hch
    omega
  · intro p hp
    exact (hbounds.2 p hp).2.1
  · refine hpw.imp ?_
    intro p q hle
    rw [Set.disjoint_left]
    intro x hx1 hx2
    simp [Set.mem_Ico] at hx1 hx2
    omega
  · exact SearchScraper.chained_union hch
  · rw [List.pairwise_reverse]
    exact hpw

/-- Witness for C4 at the concrete span `[0, 30)` with 7-day windows. -/
theorem claim_C4_windows_witness :
    (0 < 7 ∧ (0 : ℤ) < 30) ∧
    ((SearchScraper.generateDateRanges 7 0 30 ≠ []) ∧
    ((SearchScraper.generateDateRanges 7 0 30).head?.map Prod.fst = some 0) ∧
    ((SearchScraper.generateDateRanges 7 0 30).getLast?.map Prod.snd = some 30) ∧
    (∀ p ∈ SearchScraper.generateDateRanges 7 0 30, p.1 < p.2) ∧
    (SearchScraper.generateDateRanges 7 0 30).Pairwise
      (fun p q => Disjoint (Set.Ico p.1 p.2) (Set.Ico q.1 q.2)) ∧
    ((⋃ p ∈ SearchScraper.generateDateRanges 7 0 30, Set.Ico p.1 p.2)
      = Set.Ico (0 : ℤ) 30) ∧
    ((SearchScraper.generateDateRanges 7 0 30).reverse.Pairwise
      (fun p q => q.2 ≤ p.1))) :=
  ⟨⟨by decide, by decide⟩, claim_C4_windows 7 0 30 (by decide) (by decide)⟩

namespace SearchScraper

/-- The per-page filter only admits posts whose id was unseen, marks them
seen, and never admits the same id twice. -/
theorem processItems_spec (ir irr : Bool) :
    ∀ (items : List (Option Tweet)) (seen : List String),
      (∀ x ∈ seen, x ∈ (processItems seen ir irr items).2) ∧
      ((processItems seen ir irr items).1.map Tweet.id).Nodup ∧
      (∀ t ∈ (processItems seen ir irr items).1, t.id ∈ (processItems seen ir irr items).2) ∧
      (∀ t ∈ (processItems seen ir irr items).1, ¬ t.id ∈ seen) := by
  intro items
  induction items with
  | nil => intro seen; simp [processItems]
  | cons item rest ih =>
    intro seen
    match item with
    | none => simpa [processItems] using ih seen
    | some tw =>
      by_cases hseen : tw.id ∈ seen
      · simpa [processItems, hseen] using ih seen
      · by_cases hrt : ir = false ∧ tw.is_retweet = true
        · simpa [processItems, hseen, hrt] using ih seen
        · by_cases hrp : irr = false ∧ tw.is_reply = true
          · simpa [processItems, hseen, hrp] using ih seen
          · have hrec := ih (tw.id :: seen)
            obtain ⟨hmono, hnd, hmem, hfresh⟩ := hrec
            simp only [processItems]
            rw [if_neg (by simpa using hseen), if_neg (by simpa using hrt),
              if_neg (by simpa using hrp)]
            refine ⟨?_, ?_, ?_, ?_⟩
            · intro x hx
              exact hmono x (by simp [hx])
            · simp only [List.map_cons, List.nodup_cons]
              refine ⟨?_, hnd⟩
              intro hin
              obtain ⟨u, hu, huid⟩ := List.mem_map.mp hin
              exact hfresh u hu (by simp [huid])
            · intro u hu
              rcases List.mem_cons.mp hu with rfl | h
              · exact hmono u.id (by simp)
              · exact hmem u h
            · intro u hu
              rcases List.mem_cons.mp hu with rfl | h
              · exact hseen
              · intro hc
                exact hfresh u h (by simp [hc])

/-- Appending one page's filtered posts preserves the dedup invariant. -/
theorem appendItems_invariant (ir irr : Bool) (tweets : List Tweet)
    (seen : List String) (items : List (Option Tweet))
    (hnd : (tweets.map Tweet.id).Nodup) (hmem : ∀ t ∈ tweets, t.id ∈ seen) :
    (((tweets ++ (processItems seen ir irr items).1).map Tweet.id).Nodup ∧
     (∀ t ∈ tweets ++ (processItems seen ir irr items).1,
        t.id ∈ (processItems seen ir irr items).2) ∧
     (∀ x ∈ seen, x ∈ (processItems seen ir irr items).2) ∧
     (∀ t ∈ tweets ++ (processItems seen ir irr items).1,
        t ∈ tweets ∨ ¬ t.id ∈ seen)) := by
  obtain ⟨hmono, hnd2, hmem2, hfresh⟩ := processItems_spec ir irr items seen
  refine ⟨?_, ?_, hmono, ?_⟩
  · rw [List.map_append, List.nodup_append]
    refine ⟨hnd, hnd2, ?_⟩
    intro a ha hb
    obtain ⟨t1, ht1, hid1⟩ := List.mem_map.mp ha
    obtain ⟨t2, ht2, hid2⟩ := List.mem_map.mp hb
    exact hfresh t2 ht2 (hid2 ▸ hid1 ▸ hmem t1 ht1)
  · intro t ht
    rcases List.mem_append.mp ht with h | h
    · exact hmono t.id (hmem t h)
    · exact hmem2 t h
  · intro t ht
    rcases List.mem_append.mp ht with h | h
    · exact Or.inl h
    · exact Or.inr (hfresh t h)

/-- The range loop preserves the dedup invariant: its result list never
repeats an id, every collected id is recorded as seen, seen ids persist,
and newly collected posts were unseen when the loop started. -/
theorem scrapeRangeLoop_invariant (env : ℕ → Nitter.FetchOutcome Tweet)
    (resetEnv : ℕ → Bool) (mr : ℕ) (u : String) (s ut : ℤ) (ir irr : Bool) :
    ∀ (fuel : ℕ) (st : RangeState),
      (st.tweets.map Tweet.id).Nodup →
      (∀ t ∈ st.tweets, t.id ∈ st.seen) →
      (((scrapeRangeLoop env resetEnv mr u s ut ir irr fuel st).tweets.map Tweet.id).Nodup ∧
       (∀ t ∈ (scrapeRangeLoop env resetEnv mr u s ut ir irr fuel st).tweets,
          t.id ∈ (scrapeRangeLoop env resetEnv mr u s ut ir irr fuel st).seen) ∧
       (∀ x ∈ st.seen, x ∈ (scrapeRangeLoop env resetEnv mr u s ut ir irr fuel st).seen) ∧
       (∀ t ∈ (scrapeRangeLoop env resetEnv mr u s ut ir irr fuel st).tweets,
          t ∈ st.tweets ∨ ¬ t.id ∈ st.seen)) := by
  intro fuel
  induction fuel with
  | zero =>
    intro st hnd hmem
    simp only [scrapeRangeLoop]
    exact ⟨hnd, hmem, fun x hx => hx, fun t ht => Or.inl ht⟩
  | succ fuel ih =>
    intro st hnd hmem
    rw [scrapeRangeLoop]
    cases henv : env st.fetchIdx with
    | timeout => exact ⟨hnd, hmem, fun x hx => hx, fun t ht => Or.inl ht⟩
    | netError m => exact ⟨hnd, hmem, fun x hx => hx, fun t ht => Or.inl ht⟩
    | page p =>
      by_cases h429 : p.status = 429
      · simp only [if_pos h429]
        by_cases hev : (Nitter.resetForRateLimit resetEnv mr st.restartCount).success
        · simp only [if_pos hev]
          exact ih { st with restartCount := (Nitter.resetForRateLimit resetEnv mr st.restartCount).n, fetchIdx := st.fetchIdx + 1 } hnd hmem
        · simp only [if_neg hev]
          exact ⟨hnd, hmem, fun x hx => hx, fun t ht => Or.inl ht⟩
      · simp only [if_neg h429]
        by_cases h200 : p.status ≠ 200
        · simp only [if_pos h200]
          exact ⟨hnd, hmem, fun x hx => hx, fun t ht => Or.inl ht⟩
        · simp only [if_neg h200]
          cases hpanel : p.errorPanel with
          | some txt =>
            by_cases hrate : Nitter.panelMentionsRate txt
            · simp only [if_pos hrate]
              by_cases hev : (Nitter.resetForRateLimit resetEnv mr st.restartCount).success
              · simp only [if_pos hev]
                exact ih { st with restartCount := (Nitter.resetForRateLimit resetEnv mr st.restartCount).n, fetchIdx := st.fetchIdx + 1 } hnd hmem
              · simp only [if_neg hev]
                exact ⟨hnd, hmem, fun x hx => hx, fun t ht => Or.inl ht⟩
            · simp only [if_neg hrate]
              exact ⟨hnd, hmem, fun x hx => hx, fun t ht => Or.inl ht⟩
          | none =>
            obtain ⟨hand, hamem, hamono, hafresh⟩ :=
              appendItems_invariant ir irr st.tweets st.seen p.items hnd hmem
            by_cases hzero : (processItems st.seen ir irr p.items).1.length = 0
            · simp only [if_pos hzero]
              exact ⟨hand, hamem, hamono, hafresh⟩
            · simp only [if_neg hzero]
              cases hcur : p.nextCursor with
              | none => exact ⟨hand, hamem, hamono, hafresh⟩
              | some c =>
                obtain ⟨rnd, rmem, rmono, rfresh⟩ := ih { st with tweets := st.tweets ++ (processItems st.seen ir irr p.items).1, seen := (processItems st.seen ir irr p.items).2, fetchIdx := st.fetchIdx + 1, cursor := some c } hand (by intro t ht; exact hamem t ht)
                refine ⟨rnd, rmem, ?_, ?_⟩
                · intro x hx
                  exact rmono x (hamono x hx)
                · intro t ht
                  rcases rfresh t ht with h | h
                  · exact hafresh t h
                  · exact Or.inr (fun hc => h (hamono t.id hc))

/-- The window driver keeps the accumulated list duplicate-free. -/
theorem scrapeRanges_nodup (env : ℕ → Nitter.FetchOutcome Tweet)
    (resetEnv : ℕ → Bool) (mr mT : ℕ) (u : String) (ir irr : Bool) (rf : ℕ) :
    ∀ (ranges : List (ℤ × ℤ)) (acc : List Tweet) (seen : List String)
      (rc fi processed : ℕ),
      (acc.map Tweet.id).Nodup → (∀ t ∈ acc, t.id ∈ seen) →
      (((scrapeRanges env resetEnv mr mT u ir irr rf ranges acc seen rc fi processed).1.map
        Tweet.id).Nodup) := by
  intro ranges
  induction ranges with
  | nil => intro acc seen rc fi processed hnd hmem; simpa [scrapeRanges] using hnd
  | cons r rest ih =>
    intro acc seen rc fi processed hnd hmem
    match r with
    | (s, uD) =>
      by_cases hcap : mT ≤ acc.length
      · simpa [scrapeRanges, hcap] using hnd
      · obtain ⟨ond, omem, omono, ofresh⟩ := scrapeRangeLoop_invariant env resetEnv mr u s uD ir irr rf { cursor := none, tweets := [], seen := seen, restartCount := rc, fetchIdx := fi } (by simp) (by simp)
        have hacc : ((acc ++ (scrapeRangeLoop env resetEnv mr u s uD ir irr rf { cursor := none, tweets := [], seen := seen, restartCount := rc, fetchIdx := fi }).tweets).map Tweet.id).Nodup := by
          rw [List.map_append, List.nodup_append]
          refine ⟨hnd, ond, ?_⟩
          intro a ha hb
          obtain ⟨t1, ht1, hid1⟩ := List.mem_map.mp ha
          obtain ⟨t2, ht2, hid2⟩ := List.mem_map.mp hb
          rcases ofresh t2 ht2 with h | h
          · simp at h
          · exact h (hid2 ▸ hid1 ▸ hmem t1 ht1)
        by_cases hrl : (scrapeRangeLoop env resetEnv mr u s uD ir irr rf { cursor := none, tweets := [], seen := seen, restartCount := rc, fetchIdx := fi }).rateLimited
        · simpa [scrapeRanges, hcap, hrl] using hacc
        · simp only [scrapeRanges, if_neg hcap, if_neg hrl]
          refine ih _ _ _ _ _ hacc ?_
          intro t ht
          rcases List.mem_append.mp ht with h | h
          · exact omono t.id (hmem t h)
          · exact omem t h

end SearchScraper

namespace TimelineScraper

/-- The per-page retweet filter only admits unseen ids and records them. -/
theorem processRetweetItems_spec :
    ∀ (items : List (Option Tweet)) (seen : List String),
      (∀ x ∈ seen, x ∈ (processRetweetItems seen items).2) ∧
      ((processRetweetItems seen items).1.map Tweet.id).Nodup ∧
      (∀ t ∈ (processRetweetItems seen items).1, t.id ∈ (processRetweetItems seen items).2) ∧
      (∀ t ∈ (processRetweetItems seen items).1, ¬ t.id ∈ seen) := by
  intro items
  induction items with
  | nil => intro seen; simp [processRetweetItems]
  | cons item rest ih =>
    intro seen
    match item with
    | none => simpa [processRetweetItems] using ih seen
    | some tw =>
      by_cases hseen : tw.id ∈ seen
      · simpa [processRetweetItems, hseen] using ih seen
      · obtain ⟨hmono, hnd, hmem, hfresh⟩ := ih (tw.id :: seen)
        simp only [processRetweetItems]
        rw [if_neg (by simpa using hseen)]
        refine ⟨?_, ?_, ?_, ?_⟩
        · intro x hx
          exact hmono x (by simp [hx])
        · simp only [List.map_cons, List.nodup_cons]
          refine ⟨?_, hnd⟩
          intro hin
          obtain ⟨v, hv, hvid⟩ := List.mem_map.mp hin
          exact hfresh v hv (by simp [hvid])
        · intro v hv
          rcases List.mem_cons.mp hv with rfl | h
          · exact hmono v.id (by simp)
          · exact hmem v h
        · intro v hv
          rcases List.mem_cons.mp hv with rfl | h
          · exact hseen
          · intro hc
            exact hfresh v h (by simp [hc])

/-- Appending one timeline page's new retweets preserves the invariant. -/
theorem appendRetweetItems_invariant (tweets : List Tweet)
    (seen : List String) (items : List (Option Tweet))
    (hnd : (tweets.map Tweet.id).Nodup) (hmem : ∀ t ∈ tweets, t.id ∈ seen) :
    (((tweets ++ (processRetweetItems seen items).1).map Tweet.id).Nodup ∧
     (∀ t ∈ tweets ++ (processRetweetItems seen items).1,
        t.id ∈ (processRetweetItems seen items).2) ∧
     (∀ x ∈ seen, x ∈ (processRetweetItems seen items).2) ∧
     (∀ t ∈ tweets ++ (processRetweetItems seen items).1,
        t ∈ tweets ∨ ¬ t.id ∈ seen)) := by
  obtain ⟨hmono, hnd2, hmem2, hfresh⟩ := processRetweetItems_spec items seen
  refine ⟨?_, ?_, hmono, ?_⟩
  · rw [List.map_append, List.nodup_append]
    refine ⟨hnd, hnd2, ?_⟩
    intro a ha hb
    obtain ⟨t1, ht1, hid1⟩ := List.mem_map.mp ha
    obtain ⟨t2, ht2, hid2⟩ := List.mem_map.mp hb
    exact hfresh t2 ht2 (hid2 ▸ hid1 ▸ hmem t1 ht1)
  · intro t ht
    rcases List.mem_append.mp ht with h | h
    · exact hmono t.id (hmem t h)
    · exact hmem2 t h
  · intro t ht
    rcases List.mem_append.mp ht with h | h
    · exact Or.inl h
    · exact Or.inr (hfresh t h)

/-- The retweet loop preserves the dedup invariant. -/
theorem scrapeRetweetsLoop_invariant (env : ℕ → Nitter.FetchOutcome Tweet)
    (resetEnv : ℕ → Bool) (mr mR : ℕ) (u : String) :
    ∀ (fuel : ℕ) (st : TState),
      (st.tweets.map Tweet.id).Nodup →
      (∀ t ∈ st.tweets, t.id ∈ st.seen) →
      (((scrapeRetweetsLoop env resetEnv mr mR u fuel st).tweets.map Tweet.id).Nodup) := by
  intro fuel
  induction fuel with
  | zero =>
    intro st hnd hmem
    simpa [scrapeRetweetsLoop] using hnd
  | succ fuel ih =>
    intro st hnd hmem
    rw [scrapeRetweetsLoop]
    by_cases hcap : mR ≤ st.tweets.length
    · simpa [hcap] using hnd
    · simp only [if_neg hcap]
      cases henv : env st.fetchIdx with
      | timeout => exact hnd
      | netError m => exact hnd
      | page p =>
        by_cases h429 : p.status = 429
        · simp only [if_pos h429]
          by_cases hev : (Nitter.resetForRateLimit resetEnv mr st.restartCount).success
          · simp only [if_pos hev]
            exact ih { st with restartCount := (Nitter.resetForRateLimit resetEnv mr st.restartCount).n, fetchIdx := st.fetchIdx + 1 } hnd hmem
          · simpa [hev] using hnd
        · simp only [if_neg h429]
          by_cases h200 : p.status ≠ 200
          · simpa [h200] using hnd
          · simp only [if_neg h200]
            cases hpanel : p.errorPanel with
            | some txt =>
              by_cases hrate : Nitter.panelMentionsRate txt
              · simp only [if_pos hrate]
                by_cases hev : (Nitter.resetForRateLimit resetEnv mr st.restartCount).success
                · simp only [if_pos hev]
                  exact ih { st with restartCount := (Nitter.resetForRateLimit resetEnv mr st.restartCount).n, fetchIdx := st.fetchIdx + 1 } hnd hmem
                · simpa [hev] using hnd
              · simpa [hrate] using hnd
            | none =>
              by_cases hend : p.timelineEnd
              · simpa [hend] using hnd
              · simp only [hend, Bool.false_eq_true, if_false]
                obtain ⟨hand, hamem, hamono, hafresh⟩ :=
                  appendRetweetItems_invariant st.tweets st.seen p.items hnd hmem
                by_cases hzero : (processRetweetItems st.seen p.items).1.length = 0
                · simp only [if_pos hzero]
                  by_cases hce : 5 ≤ st.consecutiveEmpty + 1
                  · simpa [hce] using hand
                  · simp only [if_neg hce]
                    cases hcur : p.nextCursor with
                    | none => exact hand
                    | some c =>
                      exact ih { st with tweets := st.tweets ++ (processRetweetItems st.seen p.items).1, seen := (processRetweetItems st.seen p.items).2, fetchIdx := st.fetchIdx + 1, page := st.page + 1, cursor := some c, consecutiveEmpty := st.consecutiveEmpty + 1 } hand hamem
                · simp only [if_neg hzero]
                  cases hcur : p.nextCursor with
                  | none => exact hand
                  | some c =>
                    exact ih { st with tweets := st.tweets ++ (processRetweetItems st.seen p.items).1, seen := (processRetweetItems st.seen p.items).2, fetchIdx := st.fetchIdx + 1, page := st.page + 1, cursor := some c, consecutiveEmpty := 0 } hand hamem

end TimelineScraper

namespace ProfileScraper

/-- The capped per-page filter only admits unseen ids and records them. -/
theorem processItemsCapped_spec (mT : ℕ) (ir irr : Bool) :
    ∀ (items : List (Option Tweet)) (total : ℕ) (seen : List String),
      (∀ x ∈ seen, x ∈ (processItemsCapped mT total seen ir irr items).2) ∧
      ((processItemsCapped mT total seen ir irr items).1.map Tweet.id).Nodup ∧
      (∀ t ∈ (processItemsCapped mT total seen ir irr items).1,
        t.id ∈ (processItemsCapped mT total seen ir irr items).2) ∧
      (∀ t ∈ (processItemsCapped mT total seen ir irr items).1, ¬ t.id ∈ seen) := by
  intro items
  induction items with
  | nil => intro total seen; simp [processItemsCapped]
  | cons item rest ih =>
    intro total seen
    by_cases hcap : mT ≤ total
    · simp [processItemsCapped, hcap]
    · match item with
      | none => simpa [processItemsCapped, hcap] using ih total seen
      | some tw =>
        by_cases hseen : tw.id ∈ seen
        · simpa [processItemsCapped, hcap, hseen] using ih total seen
        · by_cases hrt : ir = false ∧ tw.is_retweet = true
          · simpa [processItemsCapped, hcap, hseen, hrt] using ih total seen
          · by_cases hrp : irr = false ∧ tw.is_reply = true
            · simpa [processItemsCapped, hcap, hseen, hrp] using ih total seen
            · obtain ⟨hmono, hnd, hmem, hfresh⟩ := ih (total + 1) (tw.id :: seen)
              simp only [processItemsCapped]
              rw [if_neg hcap, if_neg (by simpa using hseen),
                if_neg (by simpa using hrt), if_neg (by simpa using hrp)]
              refine ⟨?_, ?_, ?_, ?_⟩
              · intro x hx
                exact hmono x (by simp [hx])
              · simp only [List.map_cons, List.nodup_cons]
                refine ⟨?_, hnd⟩
                intro hin
                obtain ⟨v, hv, hvid⟩ := List.mem_map.mp hin
                exact hfresh v hv (by simp [hvid])
              · intro v hv
                rcases List.mem_cons.mp hv with rfl | h
                · exact hmono v.id (by simp)
                · exact hmem v h
              · intro v hv
                rcases List.mem_cons.mp hv with rfl | h
                · exact hseen
                · intro hc
                  exact hfresh v h (by simp [hc])

/-- Appending one profile page's filtered tweets preserves the invariant. -/
theorem appendItemsCapped_invariant (mT : ℕ) (ir irr : Bool) (tweets : List Tweet)
    (seen : List String) (items : List (Option Tweet))
    (hnd : (tweets.map Tweet.id).Nodup) (hmem : ∀ t ∈ tweets, t.id ∈ seen) :
    (((tweets ++ (processItemsCapped mT tweets.length seen ir irr items).1).map Tweet.id).Nodup ∧
     (∀ t ∈ tweets ++ (processItemsCapped mT tweets.length seen ir irr items).1,
        t.id ∈ (processItemsCapped mT tweets.length seen ir irr items).2)) := by
  obtain ⟨hmono, hnd2, hmem2, hfresh⟩ := processItemsCapped_spec mT ir irr items tweets.length seen
  constructor
  · rw [List.map_append, List.nodup_append]
    refine ⟨hnd, hnd2, ?_⟩
    intro a ha hb
    obtain ⟨t1, ht1, hid1⟩ := List.mem_map.mp ha
    obtain ⟨t2, ht2, hid2⟩ := List.mem_map.mp hb
    exact hfresh t2 ht2 (hid2 ▸ hid1 ▸ hmem t1 ht1)
  · intro t ht
    rcases List.mem_append.mp ht with h | h
    · exact hmono t.id (hmem t h)
    · exact hmem2 t h

/-- The profile loop preserves the dedup invariant. -/
theorem scrapeUserLoop_invariant (env : ℕ → Nitter.FetchOutcome Tweet)
    (mT : ℕ) (u : String) (ir irr : Bool) :
    ∀ (fuel : ℕ) (st : PState),
      (st.tweets.map Tweet.id).Nodup →
      (∀ t ∈ st.tweets, t.id ∈ st.seen) →
      (((scrapeUserLoop env mT u ir irr fuel st).tweets.map Tweet.id).Nodup) := by
  intro fuel
  induction fuel with
  | zero =>
    intro st hnd hmem
    simpa [scrapeUserLoop] using hnd
  | succ fuel ih =>
    intro st hnd hmem
    rw [scrapeUserLoop]
    by_cases hcap : mT ≤ st.tweets.length
    · simpa [hcap] using hnd
    · simp only [if_neg hcap]
      cases henv : env st.fetchIdx with
      | timeout => exact hnd
      | netError m => exact hnd
      | page p =>
        by_cases h429 : p.status = 429
        · simpa [h429] using hnd
        · simp only [if_neg h429]
          by_cases h404 : p.status = 404
          · simpa [h404] using hnd
          · simp only [if_neg h404]
            by_cases h200 : p.status ≠ 200
            · simpa [h200] using hnd
            · simp only [if_neg h200]
              cases hpanel : p.errorPanel with
              | some txt =>
                by_cases hnf : Nitter.panelMentionsNotFound txt
                · simpa [hnf] using hnd
                · simp only [if_neg hnf]
                  by_cases hrate : Nitter.panelMentionsRate txt
                  · simpa [hrate] using hnd
                  · simpa [hrate] using hnd
              | none =>
                obtain ⟨hand, hamem⟩ :=
                  appendItemsCapped_invariant mT ir irr st.tweets st.seen p.items hnd hmem
                by_cases hzero : (processItemsCapped mT st.tweets.length st.seen ir irr p.items).1.length = 0
                · simp only [if_pos hzero]
                  by_cases hce : 3 ≤ st.consecutiveEmpty + 1
                  · simpa [hce] using hand
                  · simp only [if_neg hce]
                    cases hcur : p.nextCursor with
                    | none => exact hand
                    | some c =>
                      exact ih { st with tweets := st.tweets ++ (processItemsCapped mT st.tweets.length st.seen ir irr p.items).1, seen := (processItemsCapped mT st.tweets.length st.seen ir irr p.items).2, fetchIdx := st.fetchIdx + 1, cursor := some c, consecutiveEmpty := st.consecutiveEmpty + 1 } hand hamem
                · simp only [if_neg hzero]
                  cases hcur : p.nextCursor with
                  | none => exact hand
                  | some c =>
                    exact ih { st with tweets := st.tweets ++ (processItemsCapped mT st.tweets.length st.seen ir irr p.items).1, seen := (processItemsCapped mT st.tweets.length st.seen ir irr p.items).2, fetchIdx := st.fetchIdx + 1, cursor := some c, consecutiveEmpty := 0 } hand hamem

end ProfileScraper

/-- C3: in every run of each of the three scraping loops —
`NitterSearchScraper.scrape_user` (search windows),
`NitterTimelineScraper.scrape_retweets` (timeline retweets), and
`NitterScraper.scrape_user` (plain profile pagination) — the returned
tweet list contains pairwise-distinct tweet ids, whatever the proxy serves
and however the resets go. -/
theorem claim_C3_no_duplicate_ids :
    (∀ (env : ℕ → Nitter.FetchOutcome SearchScraper.Tweet) (resetEnv : ℕ → Bool)
       (mr mT cd : ℕ) (u : String) (sd ed : Option ℤ) (nd : ℤ) (ir irr : Bool) (rf : ℕ),
      ((SearchScraper.scrape_user env resetEnv mr mT cd u sd ed nd ir irr rf).tweets.map
        SearchScraper.Tweet.id).Nodup) ∧
    (∀ (env : ℕ → Nitter.FetchOutcome TimelineScraper.Tweet) (resetEnv : ℕ → Bool)
       (mr mR : ℕ) (u : String) (fuel : ℕ),
      ((TimelineScraper.scrape_retweets env resetEnv mr mR u fuel).tweets.map
        TimelineScraper.Tweet.id).Nodup) ∧
    (∀ (env : ℕ → Nitter.FetchOutcome ProfileScraper.Tweet) (mT : ℕ) (u : String)
       (ir irr : Bool) (fuel : ℕ),
      ((ProfileScraper.scrape_user env mT u ir irr fuel).tweets.map
        ProfileScraper.Tweet.id).Nodup) := by
  refine ⟨?_, ?_, ?_⟩
  · intro env resetEnv mr mT cd u sd ed nd ir irr rf
    exact SearchScraper.scrapeRanges_nodup env resetEnv mr mT u ir irr rf _ [] [] 0 0 0 (by simp) (by simp)
  · intro env resetEnv mr mR u fuel
    exact TimelineScraper.scrapeRetweetsLoop_invariant env resetEnv mr mR u fuel {} (by simp) (by simp)
  · intro env mT u ir irr fuel
    exact ProfileScraper.scrapeUserLoop_invariant env mT u ir irr fuel {} (by simp) (by simp)

namespace SearchScraper

/-- In a search window, a page with zero new posts is always the last fetch
of the window: before any further fetch the consecutive-empty count is
still zero. -/
theorem scrapeRangeLoop_empty_is_last (env : ℕ → Nitter.FetchOutcome Tweet)
    (resetEnv : ℕ → Bool) (mr : ℕ) (u : String) (s ut : ℤ) (ir irr : Bool) :
    ∀ (fuel : ℕ) (st : RangeState) (i : ℕ),
      i < (scrapeRangeLoop env resetEnv mr u s ut ir irr fuel st).attempts.length →
      Nitter.countAfter 0
        (((scrapeRangeLoop env resetEnv mr u s ut ir irr fuel st).attempts.take i).map
          Attempt.newCount) < 1 := by
  intro fuel
  induction fuel with
  | zero =>
    intro st i hi
    simp [scrapeRangeLoop] at hi
  | succ fuel ih =>
    intro st i hi
    rw [scrapeRangeLoop] at hi ⊢
    cases henv : env st.fetchIdx with
    | timeout =>
      simp [henv] at hi
      subst hi
      simp [Nitter.countAfter]
    | netError m =>
      simp [henv] at hi
      subst hi
      simp [Nitter.countAfter]
    | page p =>
      simp only [henv] at hi ⊢
      by_cases h429 : p.status = 429
      · simp only [if_pos h429] at hi ⊢
        by_cases hev : (Nitter.resetForRateLimit resetEnv mr st.restartCount).success
        · simp only [if_pos hev] at hi ⊢
          match i with
          | 0 => simp [Nitter.countAfter]
          | i + 1 =>
            simp only [List.length_cons, Nat.add_lt_add_iff_right] at hi
            simp only [List.take_succ_cons, List.map_cons]
            have := ih _ i hi
            simpa [Nitter.countAfter] using this
        · simp only [if_neg hev] at hi ⊢
          simp at hi
          subst hi
          simp [Nitter.countAfter]
      · simp only [if_neg h429] at hi ⊢
        by_cases h200 : p.status ≠ 200
        · simp only [if_pos h200] at hi ⊢
          simp at hi
          subst hi
          simp [Nitter.countAfter]
        · simp only [if_neg h200] at hi ⊢
          cases hpanel : p.errorPanel with
          | some txt =>
            simp only [hpanel] at hi ⊢
            by_cases hrate : Nitter.panelMentionsRate txt
            · simp only [if_pos hrate] at hi ⊢
              by_cases hev : (Nitter.resetForRateLimit resetEnv mr st.restartCount).success
              · simp only [if_pos hev] at hi ⊢
                match i with
                | 0 => simp [Nitter.countAfter]
                | i + 1 =>
                  simp only [List.length_cons, Nat.add_lt_add_iff_right] at hi
                  simp only [List.take_succ_cons, List.map_cons]
                  have := ih _ i hi
                  simpa [Nitter.countAfter] using this
              · simp only [if_neg hev] at hi ⊢
                simp at hi
                subst hi
                simp [Nitter.countAfter]
            · simp only [if_neg hrate] at hi ⊢
              simp at hi
              subst hi
              simp [Nitter.countAfter]
          | none =>
            simp only [hpanel] at hi ⊢
            by_cases hzero : (processItems st.seen ir irr p.items).1.length = 0
            · simp only [if_pos hzero] at hi ⊢
              simp at hi
              subst hi
              simp [Nitter.countAfter]
            · simp only [if_neg hzero] at hi ⊢
              cases hcur : p.nextCursor with
              | none =>
                simp only [hcur] at hi ⊢
                simp at hi
                subst hi
                simp [Nitter.countAfter]
              | some c =>
                simp only [hcur] at hi ⊢
                match i with
                | 0 => simp [Nitter.countAfter]
                | i + 1 =>
                  simp only [List.length_cons, Nat.add_lt_add_iff_right] at hi
                  simp only [List.take_succ_cons, List.map_cons]
                  obtain ⟨k, hk⟩ := Nat.exists_eq_succ_of_ne_zero hzero
                  have := ih _ i hi
                  simpa [Nitter.countAfter, hk] using this

end SearchScraper

namespace TimelineScraper

/-- In the timeline retweet loop, every fetch happens while the
consecutive-empty counter is below 5: once 5 consecutive pages have yielded
nothing new, no further page is fetched. -/
theorem scrapeRetweetsLoop_empty_cap (env : ℕ → Nitter.FetchOutcome Tweet)
    (resetEnv : ℕ → Bool) (mr mR : ℕ) (u : String) :
    ∀ (fuel : ℕ) (st : TState), st.consecutiveEmpty < 5 →
      ∀ i : ℕ,
      i < (scrapeRetweetsLoop env resetEnv mr mR u fuel st).attempts.length →
      Nitter.countAfter st.consecutiveEmpty
        (((scrapeRetweetsLoop env resetEnv mr mR u fuel st).attempts.take i).map
          Attempt.newCount) < 5 := by
  intro fuel
  induction fuel with
  | zero =>
    intro st hce i hi
    simp [scrapeRetweetsLoop] at hi
  | succ fuel ih =>
    intro st hce i hi
    rw [scrapeRetweetsLoop] at hi ⊢
    by_cases hcap : mR ≤ st.tweets.length
    · simp [hcap] at hi
    · simp only [if_neg hcap] at hi ⊢
      cases henv : env st.fetchIdx with
      | timeout =>
        simp [henv] at hi
        subst hi
        simpa [Nitter.countAfter] using hce
      | netError m =>
        simp [henv] at hi
        subst hi
        simpa [Nitter.countAfter] using hce
      | page p =>
        simp only [henv] at hi ⊢
        by_cases h429 : p.status = 429
        · simp only [if_pos h429] at hi ⊢
          by_cases hev : (Nitter.resetForRateLimit resetEnv mr st.restartCount).success
          · simp only [if_pos hev] at hi ⊢
            match i with
            | 0 => simpa [Nitter.countAfter] using hce
            | i + 1 =>
              simp only [List.length_cons, Nat.add_lt_add_iff_right] at hi
              simp only [List.take_succ_cons, List.map_cons]
              have := ih { st with restartCount := (Nitter.resetForRateLimit resetEnv mr st.restartCount).n, fetchIdx := st.fetchIdx + 1 } (by show st.consecutiveEmpty < 5; exact hce) i hi
              simpa [Nitter.countAfter] using this
          · simp only [if_neg hev] at hi ⊢
            simp at hi
            subst hi
            simpa [Nitter.countAfter] using hce
        · simp only [if_neg h429] at hi ⊢
          by_cases h200 : p.status ≠ 200
          · simp only [if_pos h200] at hi ⊢
            simp at hi
            subst hi
            simpa [Nitter.countAfter] using hce
          · simp only [if_neg h200] at hi ⊢
            cases hpanel : p.errorPanel with
            | some txt =>
              simp only [hpanel] at hi ⊢
              by_cases hrate : Nitter.panelMentionsRate txt
              · simp only [if_pos hrate] at hi ⊢
                by_cases hev : (Nitter.resetForRateLimit resetEnv mr st.restartCount).success
                · simp only [if_pos hev] at hi ⊢
                  match i with
                  | 0 => simpa [Nitter.countAfter] using hce
                  | i + 1 =>
                    simp only [List.length_cons, Nat.add_lt_add_iff_right] at hi
                    simp only [List.take_succ_cons, List.map_cons]
                    have := ih { st with restartCount := (Nitter.resetForRateLimit resetEnv mr st.restartCount).n, fetchIdx := st.fetchIdx + 1 } (by show st.consecutiveEmpty < 5; exact hce) i hi
                    simpa [Nitter.countAfter] using this
                · simp only [if_neg hev] at hi ⊢
                  simp at hi
                  subst hi
                  simpa [Nitter.countAfter] using hce
              · simp only [if_neg hrate] at hi ⊢
                simp at hi
                subst hi
                simpa [Nitter.countAfter] using hce
            | none =>
              simp only [hpanel] at hi ⊢
              by_cases hend : p.timelineEnd
              · simp only [if_pos hend] at hi ⊢
                simp at hi
                subst hi
                simpa [Nitter.countAfter] using hce
              · simp only [hend, Bool.false_eq_true, if_false] at hi ⊢
                by_cases hzero : (processRetweetItems st.seen p.items).1.length = 0
                · simp only [if_pos hzero] at hi ⊢
                  by_cases h5 : 5 ≤ st.consecutiveEmpty + 1
                  · simp only [if_pos h5] at hi ⊢
                    simp at hi
                    subst hi
                    simpa [Nitter.countAfter] using hce
                  · simp only [if_neg h5] at hi ⊢
                    cases hcur : p.nextCursor with
                    | none =>
                      simp only [hcur] at hi ⊢
                      simp at hi
                      subst hi
                      simpa [Nitter.countAfter] using hce
                    | some c =>
                      simp only [hcur] at hi ⊢
                      match i with
                      | 0 => simpa [Nitter.countAfter] using hce
                      | i + 1 =>
                        simp only [List.length_cons, Nat.add_lt_add_iff_right] at hi
                        simp only [List.take_succ_cons, List.map_cons]
                        have := ih { st with tweets := st.tweets ++ (processRetweetItems st.seen p.items).1, seen := (processRetweetItems st.seen p.items).2, fetchIdx := st.fetchIdx + 1, page := st.page + 1, cursor := some c, consecutiveEmpty := st.consecutiveEmpty + 1 } (by show st.consecutiveEmpty + 1 < 5; omega) i hi
                        simpa [Nitter.countAfter, hzero] using this
                · simp only [if_neg hzero] at hi ⊢
                  cases hcur : p.nextCursor with
                  | none =>
                    simp only [hcur] at hi ⊢
                    simp at hi
                    subst hi
                    simpa [Nitter.countAfter] using hce
                  | some c =>
                    simp only [hcur] at hi ⊢
                    match i with
                    | 0 => simpa [Nitter.countAfter] using hce
                    | i + 1 =>
                      simp only [List.length_cons, Nat.add_lt_add_iff_right] at hi
                      simp only [List.take_succ_cons, List.map_cons]
                      obtain ⟨k, hk⟩ := Nat.exists_eq_succ_of_ne_zero hzero
                      have := ih { st with tweets := st.tweets ++ (processRetweetItems st.seen p.items).1, seen := (processRetweetItems st.seen p.items).2, fetchIdx := st.fetchIdx + 1, page := st.page + 1, cursor := some c, consecutiveEmpty := 0 } (by show (0 : ℕ) < 5; omega) i hi
                      simpa [Nitter.countAfter, hk] using this

end TimelineScraper

namespace ProfileScraper

/-- In the profile loop, every fetch happens while the consecutive-empty
counter is below 3: after 3 consecutive pages with no new tweets, no
further page is fetched. -/
theorem scrapeUserLoop_empty_cap (env : ℕ → Nitter.FetchOutcome Tweet)
    (mT : ℕ) (u : String) (ir irr : Bool) :
    ∀ (fuel : ℕ) (st : PState), st.consecutiveEmpty < 3 →
      ∀ i : ℕ,
      i < (scrapeUserLoop env mT u ir irr fuel st).attempts.length →
      Nitter.countAfter st.consecutiveEmpty
        (((scrapeUserLoop env mT u ir irr fuel st).attempts.take i).map
          Attempt.newCount) < 3 := by
  intro fuel
  induction fuel with
  | zero =>
    intro st hce i hi
    simp [scrapeUserLoop] at hi
  | succ fuel ih =>
    intro st hce i hi
    rw [scrapeUserLoop] at hi ⊢
    by_cases hcap : mT ≤ st.tweets.length
    · simp [hcap] at hi
    · simp only [if_neg hcap] at hi ⊢
      cases henv : env st.fetchIdx with
      | timeout =>
        simp [henv] at hi
        subst hi
        simpa [Nitter.countAfter] using hce
      | netError m =>
        simp [henv] at hi
        subst hi
        simpa [Nitter.countAfter] using hce
      | page p =>
        simp only [henv] at hi ⊢
        by_cases h429 : p.status = 429
        · simp only [if_pos h429] at hi ⊢
          simp at hi
          subst hi
          simpa [Nitter.countAfter] using hce
        · simp only [if_neg h429] at hi ⊢
          by_cases h404 : p.status = 404
          · simp only [if_pos h404] at hi ⊢
            simp at hi
            subst hi
            simpa [Nitter.countAfter] using hce
          · simp only [if_neg h404] at hi ⊢
            by_cases h200 : p.status ≠ 200
            · simp only [if_pos h200] at hi ⊢
              simp at hi
              subst hi
              simpa [Nitter.countAfter] using hce
            · simp only [if_neg h200] at hi ⊢
              cases hpanel : p.errorPanel with
              | some txt =>
                simp only [hpanel] at hi ⊢
                by_cases hnf : Nitter.panelMentionsNotFound txt
                · simp only [if_pos hnf] at hi ⊢
                  simp at hi
                  subst hi
                  simpa [Nitter.countAfter] using hce
                · simp only [if_neg hnf] at hi ⊢
                  by_cases hrate : Nitter.panelMentionsRate txt
                  · simp only [if_pos hrate] at hi ⊢
                    simp at hi
                    subst hi
                    simpa [Nitter.countAfter] using hce
                  · simp only [if_neg hrate] at hi ⊢
                    simp at hi
                    subst hi
                    simpa [Nitter.countAfter] using hce
              | none =>
                simp only [hpanel] at hi ⊢
                by_cases hzero : (processItemsCapped mT st.tweets.length st.seen ir irr p.items).1.length = 0
                · simp only [if_pos hzero] at hi ⊢
                  by_cases h3 : 3 ≤ st.consecutiveEmpty + 1
                  · simp only [if_pos h3] at hi ⊢
                    simp at hi
                    subst hi
                    simpa [Nitter.countAfter] using hce
                  · simp only [if_neg h3] at hi ⊢
                    cases hcur : p.nextCursor with
                    | none =>
                      simp only [hcur] at hi ⊢
                      simp at hi
                      subst hi
                      simpa [Nitter.countAfter] using hce
                    | some c =>
                      simp only [hcur] at hi ⊢
                      match i with
                      | 0 => simpa [Nitter.countAfter] using hce
                      | i + 1 =>
                        simp only [List.length_cons, Nat.add_lt_add_iff_right] at hi
                        simp only [List.take_succ_cons, List.map_cons]
                        have := ih { st with tweets := st.tweets ++ (processItemsCapped mT st.tweets.length st.seen ir irr p.items).1, seen := (processItemsCapped mT st.tweets.length st.seen ir irr p.items).2, fetchIdx := st.fetchIdx + 1, cursor := some c, consecutiveEmpty := st.consecutiveEmpty + 1 } (by show st.consecutiveEmpty + 1 < 3; omega) i hi
                        simpa [Nitter.countAfter, hzero] using this
                · simp only [if_neg hzero] at hi ⊢
                  cases hcur : p.nextCursor with
                  | none =>
                    simp only [hcur] at hi ⊢
                    simp at hi
                    subst hi
                    simpa [Nitter.countAfter] using hce
                  | some c =>
                    simp only [hcur] at hi ⊢
                    match i with
                    | 0 => simpa [Nitter.countAfter] using hce
                    | i + 1 =>
                      simp only [List.length_cons, Nat.add_lt_add_iff_right] at hi
                      simp only [List.take_succ_cons, List.map_cons]
                      obtain ⟨k, hk⟩ := Nat.exists_eq_succ_of_ne_zero hzero
                      have := ih { st with tweets := st.tweets ++ (processItemsCapped mT st.tweets.length st.seen ir irr p.items).1, seen := (processItemsCapped mT st.tweets.length st.seen ir irr p.items).2, fetchIdx := st.fetchIdx + 1, cursor := some c, consecutiveEmpty := 0 } (by show (0 : ℕ) < 3; omega) i hi
                      simpa [Nitter.countAfter, hk] using this

end ProfileScraper

/-- C5, counterexample: the timeline retweet loop
(`NitterTimelineScraper.scrape_retweets`), fed pages that keep yielding
zero new posts (no rate-limit signal), has already fetched a 4th page after
3 consecutive zero-new pages — its threshold is 5, not 3 (and the search
window loop stops after the 1st such page, also not the 3rd). -/
theorem claim_C5_counterexample :
    (((TimelineScraper.scrape_retweets Scenario.tlEmptyEnv (fun _ => false) 1000 10000
        "u" 10).attempts.map TimelineScraper.Attempt.newCount).take 3
      = [some 0, some 0, some 0]) ∧
    4 ≤ (TimelineScraper.scrape_retweets Scenario.tlEmptyEnv (fun _ => false) 1000 10000
        "u" 10).attempts.length := by
  decide

/-- C5 (amended): the consecutive-zero-new-page stop thresholds differ per
loop.  A search window (`_scrape_date_range`) never fetches again after a
zero-new page (threshold 1); the profile loop (`NitterScraper.scrape_user`)
never fetches a page once 3 consecutive pages yielded nothing new; the
timeline retweet loop (`NitterTimelineScraper.scrape_retweets`) never
fetches once 5 consecutive pages yielded nothing new.  In each loop, every
fetched page is fetched while the respective counter is still below the
threshold. -/
theorem claim_C5_amended :
    (∀ (env : ℕ → Nitter.FetchOutcome SearchScraper.Tweet) (resetEnv : ℕ → Bool)
       (mr : ℕ) (u : String) (s ut : ℤ) (ir irr : Bool) (fuel : ℕ)
       (st : SearchScraper.RangeState) (i : ℕ),
      i < (SearchScraper.scrapeRangeLoop env resetEnv mr u s ut ir irr fuel st).attempts.length →
      Nitter.countAfter 0
        (((SearchScraper.scrapeRangeLoop env resetEnv mr u s ut ir irr fuel st).attempts.take i).map
          SearchScraper.Attempt.newCount) < 1) ∧
    (∀ (env : ℕ → Nitter.FetchOutcome TimelineScraper.Tweet) (resetEnv : ℕ → Bool)
       (mr mR : ℕ) (u : String) (fuel : ℕ) (i : ℕ),
      i < (TimelineScraper.scrape_retweets env resetEnv mr mR u fuel).attempts.length →
      Nitter.countAfter 0
        (((TimelineScraper.scrape_retweets env resetEnv mr mR u fuel).attempts.take i).map
          TimelineScraper.Attempt.newCount) < 5) ∧
    (∀ (env : ℕ → Nitter.FetchOutcome ProfileScraper.Tweet) (mT : ℕ) (u : String)
       (ir irr : Bool) (fuel : ℕ) (i : ℕ),
      i < (ProfileScraper.scrape_user env mT u ir irr fuel).attempts.length →
      Nitter.countAfter 0
        (((ProfileScraper.scrape_user env mT u ir irr fuel).attempts.take i).map
          ProfileScraper.Attempt.newCount) < 3) := by
  refine ⟨?_, ?_, ?_⟩
  · intro env resetEnv mr u s ut ir irr fuel st i hi
    exact SearchScraper.scrapeRangeLoop_empty_is_last env resetEnv mr u s ut ir irr fuel st i hi
  · intro env resetEnv mr mR u fuel i hi
    exact TimelineScraper.scrapeRetweetsLoop_empty_cap env resetEnv mr mR u fuel {}
      (by decide) i hi
  · intro env mT u ir irr fuel i hi
    exact ProfileScraper.scrapeUserLoop_empty_cap env mT u ir irr fuel {} (by decide) i hi

/-- Witness for the amended C5, one concrete run per loop: a search window
fed an empty page makes exactly 1 fetch, a timeline run fed empty pages
makes its 5th fetch with counter 4 < 5, a profile run makes its 3rd fetch
with counter 2 < 3. -/
theorem claim_C5_amended_witness :
    (0 < (SearchScraper.scrapeRangeLoop Scenario.sEmptyEnv (fun _ => false) 50 "u" 0 30
        true true 5 {}).attempts.length ∧
      Nitter.countAfter 0
        (((SearchScraper.scrapeRangeLoop Scenario.sEmptyEnv (fun _ => false) 50 "u" 0 30
          true true 5 {}).attempts.take 0).map SearchScraper.Attempt.newCount) < 1) ∧
    (4 < (TimelineScraper.scrape_retweets Scenario.tlEmptyEnv (fun _ => false) 1000 10000
        "u" 10).attempts.length ∧
      Nitter.countAfter 0
        (((TimelineScraper.scrape_retweets Scenario.tlEmptyEnv (fun _ => false) 1000 10000
          "u" 10).attempts.take 4).map TimelineScraper.Attempt.newCount) < 5) ∧
    (2 < (ProfileScraper.scrape_user Scenario.profEmptyEnv 100 "u" true true 10).attempts.length ∧
      Nitter.countAfter 0
        (((ProfileScraper.scrape_user Scenario.profEmptyEnv 100 "u" true true
          10).attempts.take 2).map ProfileScraper.Attempt.newCount) < 3) := by
  refine ⟨⟨by decide, ?_⟩, ⟨by decide, ?_⟩, ⟨by decide, ?_⟩⟩
  · exact claim_C5_amended.1 Scenario.sEmptyEnv (fun _ => false) 50 "u" 0 30 true true 5 {} 0
      (by decide)
  · exact claim_C5_amended.2.1 Scenario.tlEmptyEnv (fun _ => false) 1000 10000 "u" 10 4
      (by decide)
  · exact claim_C5_amended.2.2 Scenario.profEmptyEnv 100 "u" true true 10 2 (by decide)

namespace SearchScraper

/-- The first attempt of any (non-exhausted) range-loop run requests the
URL built from the state's current cursor. -/
theorem scrapeRangeLoop_head_req (env : ℕ → Nitter.FetchOutcome Tweet)
    (resetEnv : ℕ → Bool) (mr : ℕ) (u : String) (s ut : ℤ) (ir irr : Bool) :
    ∀ (fuel : ℕ) (st : RangeState) (a : Attempt),
      (scrapeRangeLoop env resetEnv mr u s ut ir irr fuel st).attempts.head? = some a →
      a.req = { username := u, sinceDay := s, untilDay := ut, cursor := st.cursor } := by
  intro fuel st a h
  cases fuel with
  | zero => simp [scrapeRangeLoop] at h
  | succ fuel =>
    rw [scrapeRangeLoop] at h
    cases henv : env st.fetchIdx with
    | timeout =>
      simp only [henv] at h
      simp only [List.head?_cons, Option.some.injEq] at h
      rw [← h]
    | netError m =>
      simp only [henv] at h
      simp only [List.head?_cons, Option.some.injEq] at h
      rw [← h]
    | page p =>
      simp only [henv] at h
      by_cases h429 : p.status = 429
      · rw [if_pos h429] at h
        by_cases hev : (Nitter.resetForRateLimit resetEnv mr st.restartCount).success
        · rw [if_pos hev] at h
          simp only [List.head?_cons, Option.some.injEq] at h
          rw [← h]
        · rw [if_neg hev] at h
          simp only [List.head?_cons, Option.some.injEq] at h
          rw [← h]
      · rw [if_neg h429] at h
        by_cases h200 : p.status ≠ 200
        · rw [if_pos h200] at h
          simp only [List.head?_cons, Option.some.injEq] at h
          rw [← h]
        · rw [if_neg h200] at h
          cases hpanel : p.errorPanel with
          | some txt =>
            simp only [hpanel] at h
            by_cases hrate : Nitter.panelMentionsRate txt
            · rw [if_pos hrate] at h
              by_cases hev : (Nitter.resetForRateLimit resetEnv mr st.restartCount).success
              · rw [if_pos hev] at h
                simp only [List.head?_cons, Option.some.injEq] at h
                rw [← h]
              · rw [if_neg hev] at h
                simp only [List.head?_cons, Option.some.injEq] at h
                rw [← h]
            · rw [if_neg hrate] at h
              simp only [List.head?_cons, Option.some.injEq] at h
              rw [← h]
          | none =>
            simp only [hpanel] at h
            by_cases hzero : (processItems st.seen ir irr p.items).1.length = 0
            · rw [if_pos hzero] at h
              simp only [List.head?_cons, Option.some.injEq] at h
              rw [← h]
            · rw [if_neg hzero] at h
              cases hcur : p.nextCursor with
              | none =>
                simp only [hcur] at h
                simp only [List.head?_cons, Option.some.injEq] at h
                rw [← h]
              | some c =>
                simp only [hcur] at h
                simp only [List.head?_cons, Option.some.injEq] at h
                rw [← h]

end SearchScraper

namespace SearchScraper

/-- After a rate-limited attempt whose recovery reset succeeded, the very
next fetch of the range loop uses the same request — same username, same
window, same cursor — as the failed attempt. -/
theorem scrapeRangeLoop_retry_same_req (env : ℕ → Nitter.FetchOutcome Tweet)
    (resetEnv : ℕ → Bool) (mr : ℕ) (u : String) (s ut : ℤ) (ir irr : Bool) :
    ∀ (fuel : ℕ) (st : RangeState) (i : ℕ) (a b : Attempt),
      (scrapeRangeLoop env resetEnv mr u s ut ir irr fuel st).attempts.get? i = some a →
      (scrapeRangeLoop env resetEnv mr u s ut ir irr fuel st).attempts.get? (i + 1) = some b →
      (∃ ev, a.reset = some ev ∧ ev.success = true) →
      b.req = a.req := by
  intro fuel
  induction fuel with
  | zero =>
    intro st i a b ha hb hrec
    simp [scrapeRangeLoop] at ha
  | succ fuel ih =>
    intro st i a b ha hb hrec
    rw [scrapeRangeLoop] at ha hb
    cases henv : env st.fetchIdx with
    | timeout =>
      simp only [henv] at ha hb
      simp at hb
    | netError m =>
      simp only [henv] at ha hb
      simp at hb
    | page p =>
      simp only [henv] at ha hb
      by_cases h429 : p.status = 429
      · rw [if_pos h429] at ha hb
        by_cases hev : (Nitter.resetForRateLimit resetEnv mr st.restartCount).success
        · rw [if_pos hev] at ha hb
          match i with
          | 0 =>
            simp only [List.get?_cons_zero, Option.some.injEq] at ha
            simp only [List.get?_cons_succ] at hb
            have hb' : (scrapeRangeLoop env resetEnv mr u s ut ir irr fuel { st with restartCount := (Nitter.resetForRateLimit resetEnv mr st.restartCount).n, fetchIdx := st.fetchIdx + 1 }).attempts.head? = some b := by
              rw [← List.get?_zero]
              exact hb
            have := scrapeRangeLoop_head_req env resetEnv mr u s ut ir irr fuel _ b hb'
            rw [this, ← ha]
          | i + 1 =>
            simp only [List.get?_cons_succ] at ha hb
            exact ih _ i a b ha hb hrec
        · rw [if_neg hev] at ha hb
          simp at hb
      · rw [if_neg h429] at ha hb
        by_cases h200 : p.status ≠ 200
        · rw [if_pos h200] at ha hb
          simp at hb
        · rw [if_neg h200] at ha hb
          cases hpanel : p.errorPanel with
          | some txt =>
            simp only [hpanel] at ha hb
            by_cases hrate : Nitter.panelMentionsRate txt
            · rw [if_pos hrate] at ha hb
              by_cases hev : (Nitter.resetForRateLimit resetEnv mr st.restartCount).success
              · rw [if_pos hev] at ha hb
                match i with
                | 0 =>
                  simp only [List.get?_cons_zero, Option.some.injEq] at ha
                  simp only [List.get?_cons_succ] at hb
                  have hb' : (scrapeRangeLoop env resetEnv mr u s ut ir irr fuel { st with restartCount := (Nitter.resetForRateLimit resetEnv mr st.restartCount).n, fetchIdx := st.fetchIdx + 1 }).attempts.head? = some b := by
                    rw [← List.get?_zero]
                    exact hb
                  have := scrapeRangeLoop_head_req env resetEnv mr u s ut ir irr fuel _ b hb'
                  rw [this, ← ha]
                | i + 1 =>
                  simp only [List.get?_cons_succ] at ha hb
                  exact ih _ i a b ha hb hrec
              · rw [if_neg hev] at ha hb
                simp at hb
            · rw [if_neg hrate] at ha hb
              simp at hb
          | none =>
            simp only [hpanel] at ha hb
            by_cases hzero : (processItems st.seen ir irr p.items).1.length = 0
            · rw [if_pos hzero] at ha hb
              simp at hb
            · rw [if_neg hzero] at ha hb
              cases hcur : p.nextCursor with
              | none =>
                simp only [hcur] at ha hb
                simp at hb
              | some c =>
                simp only [hcur] at ha hb
                match i with
                | 0 =>
                  simp only [List.get?_cons_zero, Option.some.injEq] at ha
                  obtain ⟨ev, hev1, _⟩ := hrec
                  rw [← ha] at hev1
                  simp at hev1
                | i + 1 =>
                  simp only [List.get?_cons_succ] at ha hb
                  exact ih _ i a b ha hb hrec

end SearchScraper

namespace TimelineScraper

/-- The first attempt of any (non-exhausted, under-cap) timeline-loop run
requests the URL built from the state's current cursor. -/
theorem scrapeRetweetsLoop_head_req (env : ℕ → Nitter.FetchOutcome Tweet)
    (resetEnv : ℕ → Bool) (mr mR : ℕ) (u : String) :
    ∀ (fuel : ℕ) (st : TState) (a : Attempt),
      (scrapeRetweetsLoop env resetEnv mr mR u fuel st).attempts.head? = some a →
      a.req = { username := u, cursor := st.cursor } := by
  intro fuel st a h
  cases fuel with
  | zero => simp [scrapeRetweetsLoop] at h
  | succ fuel =>
    rw [scrapeRetweetsLoop] at h
    by_cases hcap : mR ≤ st.tweets.length
    · simp [hcap] at h
    · rw [if_neg hcap] at h
      cases henv : env st.fetchIdx with
      | timeout =>
        simp only [henv] at h
        simp only [List.head?_cons, Option.some.injEq] at h
        rw [← h]
      | netError m =>
        simp only [henv] at h
        simp only [List.head?_cons, Option.some.injEq] at h
        rw [← h]
      | page p =>
        simp only [henv] at h
        by_cases h429 : p.status = 429
        · rw [if_pos h429] at h
          by_cases hev : (Nitter.resetForRateLimit resetEnv mr st.restartCount).success
          · rw [if_pos hev] at h
            simp only [List.head?_cons, Option.some.injEq] at h
            rw [← h]
          · rw [if_neg hev] at h
            simp only [List.head?_cons, Option.some.injEq] at h
            rw [← h]
        · rw [if_neg h429] at h
          by_cases h200 : p.status ≠ 200
          · rw [if_pos h200] at h
            simp only [List.head?_cons, Option.some.injEq] at h
            rw [← h]
          · rw [if_neg h200] at h
            cases hpanel : p.errorPanel with
            | some txt =>
              simp only [hpanel] at h
              by_cases hrate : Nitter.panelMentionsRate txt
              · rw [if_pos hrate] at h
                by_cases hev : (Nitter.resetForRateLimit resetEnv mr st.restartCount).success
                · rw [if_pos hev] at h
                  simp only [List.head?_cons, Option.some.injEq] at h
                  rw [← h]
                · rw [if_neg hev] at h
                  simp only [List.head?_cons, Option.some.injEq] at h
                  rw [← h]
              · rw [if_neg hrate] at h
                simp only [List.head?_cons, Option.some.injEq] at h
                rw [← h]
            | none =>
              simp only [hpanel] at h
              by_cases hend : p.timelineEnd
              · rw [if_pos hend] at h
                simp only [List.head?_cons, Option.some.injEq] at h
                rw [← h]
              · simp only [hend, Bool.false_eq_true, if_false] at h
                by_cases hzero : (processRetweetItems st.seen p.items).1.length = 0
                · rw [if_pos hzero] at h
                  by_cases hce : 5 ≤ st.consecutiveEmpty + 1
                  · rw [if_pos hce] at h
                    simp only [List.head?_cons, Option.some.injEq] at h
                    rw [← h]
                  · rw [if_neg hce] at h
                    cases hcur : p.nextCursor with
                    | none =>
                      simp only [hcur] at h
                      simp only [List.head?_cons, Option.some.injEq] at h
                      rw [← h]
                    | some c =>
                      simp only [hcur] at h
                      simp only [List.head?_cons, Option.some.injEq] at h
                      rw [← h]
                · rw [if_neg hzero] at h
                  cases hcur : p.nextCursor with
                  | none =>
                    simp only [hcur] at h
                    simp only [List.head?_cons, Option.some.injEq] at h
                    rw [← h]
                  | some c =>
                    simp only [hcur] at h
                    simp only [List.head?_cons, Option.some.injEq] at h
                    rw [← h]

/-- After a rate-limited attempt whose recovery reset succeeded, the very
next fetch of the timeline loop uses the same request (same cursor) as the
failed attempt. -/
theorem scrapeRetweetsLoop_retry_same_req (env : ℕ → Nitter.FetchOutcome Tweet)
    (resetEnv : ℕ → Bool) (mr mR : ℕ) (u : String) :
    ∀ (fuel : ℕ) (st : TState) (i : ℕ) (a b : Attempt),
      (scrapeRetweetsLoop env resetEnv mr mR u fuel st).attempts.get? i = some a →
      (scrapeRetweetsLoop env resetEnv mr mR u fuel st).attempts.get? (i + 1) = some b →
      (∃ ev, a.reset = some ev ∧ ev.success = true) →
      b.req = a.req := by
  intro fuel
  induction fuel with
  | zero =>
    intro st i a b ha hb hrec
    simp [scrapeRetweetsLoop] at ha
  | succ fuel ih =>
    intro st i a b ha hb hrec
    rw [scrapeRetweetsLoop] at ha hb
    by_cases hcap : mR ≤ st.tweets.length
    · simp [hcap] at ha
    · rw [if_neg hcap] at ha hb
      cases henv : env st.fetchIdx with
      | timeout =>
        simp only [henv] at ha hb
        simp at hb
      | netError m =>
        simp only [henv] at ha hb
        simp at hb
      | page p =>
        simp only [henv] at ha hb
        by_cases h429 : p.status = 429
        · rw [if_pos h429] at ha hb
          by_cases hev : (Nitter.resetForRateLimit resetEnv mr st.restartCount).success
          · rw [if_pos hev] at ha hb
            match i with
            | 0 =>
              simp only [List.get?_cons_zero, Option.some.injEq] at ha
              simp only [List.get?_cons_succ] at hb
              have hb' : (scrapeRetweetsLoop env resetEnv mr mR u fuel { st with restartCount := (Nitter.resetForRateLimit resetEnv mr st.restartCount).n, fetchIdx := st.fetchIdx + 1 }).attempts.head? = some b := by
                rw [← List.get?_zero]
                exact hb
              have := scrapeRetweetsLoop_head_req env resetEnv mr mR u fuel _ b hb'
              rw [this, ← ha]
            | i + 1 =>
              simp only [List.get?_cons_succ] at ha hb
              exact ih _ i a b ha hb hrec
          · rw [if_neg hev] at ha hb
            simp at hb
        · rw [if_neg h429] at ha hb
          by_cases h200 : p.status ≠ 200
          · rw [if_pos h200] at ha hb
            simp at hb
          · rw [if_neg h200] at ha hb
            cases hpanel : p.errorPanel with
            | some txt =>
              simp only [hpanel] at ha hb
              by_cases hrate : Nitter.panelMentionsRate txt
              · rw [if_pos hrate] at ha hb
                by_cases hev : (Nitter.resetForRateLimit resetEnv mr st.restartCount).success
                · rw [if_pos hev] at ha hb
                  match i with
                  | 0 =>
                    simp only [List.get?_cons_zero, Option.some.injEq] at ha
                    simp only [List.get?_cons_succ] at hb
                    have hb' : (scrapeRetweetsLoop env resetEnv mr mR u fuel { st with restartCount := (Nitter.resetForRateLimit resetEnv mr st.restartCount).n, fetchIdx := st.fetchIdx + 1 }).attempts.head? = some b := by
                      rw [← List.get?_zero]
                      exact hb
                    have := scrapeRetweetsLoop_head_req env resetEnv mr mR u fuel _ b hb'
                    rw [this, ← ha]
                  | i + 1 =>
                    simp only [List.get?_cons_succ] at ha hb
                    exact ih _ i a b ha hb hrec
                · rw [if_neg hev] at ha hb
                  simp at hb
              · rw [if_neg hrate] at ha hb
                simp at hb
            | none =>
              simp only [hpanel] at ha hb
              by_cases hend : p.timelineEnd
              · rw [if_pos hend] at ha hb
                simp at hb
              · simp only [hend, Bool.false_eq_true, if_false] at ha hb
                by_cases hzero : (processRetweetItems st.seen p.items).1.length = 0
                · rw [if_pos hzero] at ha hb
                  by_cases hce : 5 ≤ st.consecutiveEmpty + 1
                  · rw [if_pos hce] at ha hb
                    simp at hb
                  · rw [if_neg hce] at ha hb
                    cases hcur : p.nextCursor with
                    | none =>
                      simp only [hcur] at ha hb
                      simp at hb
                    | some c =>
                      simp only [hcur] at ha hb
                      match i with
                      | 0 =>
                        simp only [List.get?_cons_zero, Option.some.injEq] at ha
                        obtain ⟨ev, hev1, _⟩ := hrec
                        rw [← ha] at hev1
                        simp at hev1
                      | i + 1 =>
                        simp only [List.get?_cons_succ] at ha hb
                        exact ih _ i a b ha hb hrec
                · rw [if_neg hzero] at ha hb
                  cases hcur : p.nextCursor with
                  | none =>
                    simp only [hcur] at ha hb
                    simp at hb
                  | some c =>
                    simp only [hcur] at ha hb
                    match i with
                    | 0 =>
                      simp only [List.get?_cons_zero, Option.some.injEq] at ha
                      obtain ⟨ev, hev1, _⟩ := hrec
                      rw [← ha] at hev1
                      simp at hev1
                    | i + 1 =>
                      simp only [List.get?_cons_succ] at ha hb
                      exact ih _ i a b ha hb hrec

end TimelineScraper

/-- C6: in every run of the search-window loop and of the timeline retweet
loop, whenever a page fetch signals rate-limited (HTTP 429 or the in-body
marker, both recorded with their triggered reset) and the recovery reset
succeeds, the very next fetch requests the same page: its request — and in
particular its cursor — is identical to that of the failed attempt. -/
theorem claim_C6_retry_same_page :
    (∀ (env : ℕ → Nitter.FetchOutcome SearchScraper.Tweet) (resetEnv : ℕ → Bool)
       (mr : ℕ) (u : String) (s ut : ℤ) (ir irr : Bool) (fuel : ℕ)
       (st : SearchScraper.RangeState) (i : ℕ) (a b : SearchScraper.Attempt),
      (SearchScraper.scrapeRangeLoop env resetEnv mr u s ut ir irr fuel st).attempts.get? i
        = some a →
      (SearchScraper.scrapeRangeLoop env resetEnv mr u s ut ir irr fuel st).attempts.get? (i + 1)
        = some b →
      (∃ ev, a.reset = some ev ∧ ev.success = true) →
      b.req = a.req) ∧
    (∀ (env : ℕ → Nitter.FetchOutcome TimelineScraper.Tweet) (resetEnv : ℕ → Bool)
       (mr mR : ℕ) (u : String) (fuel : ℕ)
       (st : TimelineScraper.TState) (i : ℕ) (a b : TimelineScraper.Attempt),
      (TimelineScraper.scrapeRetweetsLoop env resetEnv mr mR u fuel st).attempts.get? i
        = some a →
      (TimelineScraper.scrapeRetweetsLoop env resetEnv mr mR u fuel st).attempts.get? (i + 1)
        = some b →
      (∃ ev, a.reset = some ev ∧ ev.success = true) →
      b.req = a.req) := by
  constructor
  · intro env resetEnv mr u s ut ir irr fuel st i a b ha hb hrec
    exact SearchScraper.scrapeRangeLoop_retry_same_req env resetEnv mr u s ut ir irr
      fuel st i a b ha hb hrec
  · intro env resetEnv mr mR u fuel st i a b ha hb hrec
    exact TimelineScraper.scrapeRetweetsLoop_retry_same_req env resetEnv mr mR u
      fuel st i a b ha hb hrec

/-- Witness for C6 on concrete scripts: in each loop, fetch 0 is a 429 that
recovers, and fetch 1 repeats fetch 0's request. -/
theorem claim_C6_retry_same_page_witness :
    ((((SearchScraper.scrapeRangeLoop Scenario.c6SearchEnv (fun _ => true) 50 "alice" 0 30
        true true 5 {}).attempts.get? 0).bind (fun a => a.reset)).map
          (fun ev => ev.success) = some true ∧
      ((SearchScraper.scrapeRangeLoop Scenario.c6SearchEnv (fun _ => true) 50 "alice" 0 30
        true true 5 {}).attempts.get? 1).map (fun a => a.req)
        = ((SearchScraper.scrapeRangeLoop Scenario.c6SearchEnv (fun _ => true) 50 "alice" 0 30
        true true 5 {}).attempts.get? 0).map (fun a => a.req)) ∧
    ((((TimelineScraper.scrapeRetweetsLoop Scenario.c6TimelineEnv (fun _ => true) 1000 10000
        "alice" 5 {}).attempts.get? 0).bind (fun a => a.reset)).map
          (fun ev => ev.success) = some true ∧
      ((TimelineScraper.scrapeRetweetsLoop Scenario.c6TimelineEnv (fun _ => true) 1000 10000
        "alice" 5 {}).attempts.get? 1).map (fun a => a.req)
        = ((TimelineScraper.scrapeRetweetsLoop Scenario.c6TimelineEnv (fun _ => true) 1000 10000
        "alice" 5 {}).attempts.get? 0).map (fun a => a.req)) := by
  constructor
  · refine ⟨by decide, ?_⟩
    cases hS0 : (SearchScraper.scrapeRangeLoop Scenario.c6SearchEnv (fun _ => true) 50 "alice" 0 30 true true 5 {}).attempts.get? 0 with
    | none => exact absurd hS0 (by decide)
    | some a =>
      cases hS1 : (SearchScraper.scrapeRangeLoop Scenario.c6SearchEnv (fun _ => true) 50 "alice" 0 30 true true 5 {}).attempts.get? 1 with
      | none => exact absurd hS1 (by decide)
      | some b =>
        have hsucc : ((some a).bind (fun x => x.reset)).map (fun ev => ev.success) = some true := by
          rw [← hS0]
          decide
        have hrec : ∃ ev, a.reset = some ev ∧ ev.success = true := by
          cases har : a.reset with
          | none => rw [Option.some_bind, har] at hsucc; simp at hsucc
          | some ev =>
            rw [Option.some_bind, har] at hsucc
            simp at hsucc
            exact ⟨ev, rfl, hsucc⟩
        simp only [Option.map_some']
        exact congrArg some
          (claim_C6_retry_same_page.1 Scenario.c6SearchEnv (fun _ => true) 50 "alice" 0 30
            true true 5 {} 0 a b hS0 hS1 hrec)
  · refine ⟨by decide, ?_⟩
    cases hT0 : (TimelineScraper.scrapeRetweetsLoop Scenario.c6TimelineEnv (fun _ => true) 1000 10000 "alice" 5 {}).attempts.get? 0 with
    | none => exact absurd hT0 (by decide)
    | some a =>
      cases hT1 : (TimelineScraper.scrapeRetweetsLoop Scenario.c6TimelineEnv (fun _ => true) 1000 10000 "alice" 5 {}).attempts.get? 1 with
      | none => exact absurd hT1 (by decide)
      | some b =>
        have hsucc : ((some a).bind (fun x => x.reset)).map (fun ev => ev.success) = some true := by
          rw [← hT0]
          decide
        have hrec : ∃ ev, a.reset = some ev ∧ ev.success = true := by
          cases har : a.reset with
          | none => rw [Option.some_bind, har] at hsucc; simp at hsucc
          | some ev =>
            rw [Option.some_bind, har] at hsucc
            simp at hsucc
            exact ⟨ev, rfl, hsucc⟩
        simp only [Option.map_some']
        exact congrArg some
          (claim_C6_retry_same_page.2 Scenario.c6TimelineEnv (fun _ => true) 1000 10000
            "alice" 5 {} 0 a b hT0 hT1 hrec)

namespace Nitter

theorem resetForRateLimit_n (re : ℕ → Bool) (mr c : ℕ) :
    (resetForRateLimit re mr c).n = c + 1 := by
  rw [resetForRateLimit]
  split <;> rfl

theorem resetForRateLimit_country (re : ℕ → Bool) (mr c : ℕ) :
    (resetForRateLimit re mr c).country
      = if mr < c + 1 then none else some (switchVpnCountry (c + 1)) := by
  rw [resetForRateLimit]
  split <;> simp_all

/-- Two adjacent positions of the 20-element VPN pool always hold different
countries (including the wrap-around). -/
theorem vpn_adjacent_distinct (n : ℕ) :
    VPN_COUNTRIES.getD ((n + 1) % 20) "" ≠ VPN_COUNTRIES.getD (n % 20) "" := by
  have key : ∀ r, r < 20 →
      VPN_COUNTRIES.getD ((r + 1) % 20) "" ≠ VPN_COUNTRIES.getD r "" := by decide
  have h2 : (n + 1) % 20 = (n % 20 + 1) % 20 := by
    conv_lhs => rw [Nat.add_mod]
  rw [h2]
  exact key (n % 20) (Nat.mod_lt _ (by decide))

end Nitter

namespace SearchScraper

/-- The reset events of a range-loop run are numbered consecutively from
the starting cumulative counter, and each one under the cap selects the
pool country indexed by its number. -/
theorem scrapeRangeLoop_resets (env : ℕ → Nitter.FetchOutcome Tweet)
    (resetEnv : ℕ → Bool) (mr : ℕ) (u : String) (s ut : ℤ) (ir irr : Bool) :
    ∀ (fuel : ℕ) (st : RangeState) (i : ℕ) (ev : Nitter.ResetEvent),
      ((scrapeRangeLoop env resetEnv mr u s ut ir irr fuel st).attempts.filterMap
        (fun a => a.reset)).get? i = some ev →
      (ev.n = st.restartCount + i + 1 ∧
       (ev.n ≤ mr → ev.country = some (Nitter.switchVpnCountry ev.n)) ∧
       (mr < ev.n → ev.country = none)) := by
  intro fuel
  induction fuel with
  | zero =>
    intro st i ev hi
    simp [scrapeRangeLoop] at hi
  | succ fuel ih =>
    intro st i ev hi
    rw [scrapeRangeLoop] at hi
    cases henv : env st.fetchIdx with
    | timeout => simp only [henv] at hi; simp at hi
    | netError m => simp only [henv] at hi; simp at hi
    | page p =>
      simp only [henv] at hi
      by_cases h429 : p.status = 429
      · rw [if_pos h429] at hi
        by_cases hev : (Nitter.resetForRateLimit resetEnv mr st.restartCount).success
        · rw [if_pos hev] at hi
          simp only [List.filterMap_cons] at hi
          match i with
          | 0 =>
            simp only [List.get?_cons_zero, Option.some.injEq] at hi
            subst hi
            refine ⟨Nitter.resetForRateLimit_n resetEnv mr st.restartCount, ?_, ?_⟩
            · intro hle
              rw [Nitter.resetForRateLimit_country]
              rw [Nitter.resetForRateLimit_n] at hle
              rw [if_neg (by omega), Nitter.resetForRateLimit_n]
            · intro hgt
              rw [Nitter.resetForRateLimit_country]
              rw [Nitter.resetForRateLimit_n] at hgt
              rw [if_pos hgt]
          | i + 1 =>
            simp only [List.get?_cons_succ] at hi
            obtain ⟨hn, hc1, hc2⟩ := ih { st with restartCount := (Nitter.resetForRateLimit resetEnv mr st.restartCount).n, fetchIdx := st.fetchIdx + 1 } i ev hi
            refine ⟨?_, hc1, hc2⟩
            have : ({ st with restartCount := (Nitter.resetForRateLimit resetEnv mr st.restartCount).n, fetchIdx := st.fetchIdx + 1 } : RangeState).restartCount = st.restartCount + 1 := by
              rw [Nitter.resetForRateLimit_n]
            rw [this] at hn
            omega
        · rw [if_neg hev] at hi
          simp only [List.filterMap_cons] at hi
          match i with
          | 0 =>
            simp only [List.filterMap_nil, List.get?_cons_zero, Option.some.injEq] at hi
            subst hi
            refine ⟨Nitter.resetForRateLimit_n resetEnv mr st.restartCount, ?_, ?_⟩
            · intro hle
              rw [Nitter.resetForRateLimit_country]
              rw [Nitter.resetForRateLimit_n] at hle
              rw [if_neg (by omega), Nitter.resetForRateLimit_n]
            · intro hgt
              rw [Nitter.resetForRateLimit_country]
              rw [Nitter.resetForRateLimit_n] at hgt
              rw [if_pos hgt]
          | i + 1 =>
            simp only [List.filterMap_nil, List.get?_cons_succ, List.get?_nil] at hi
            exact absurd hi (by simp)
      · rw [if_neg h429] at hi
        by_cases h200 : p.status ≠ 200
        · rw [if_pos h200] at hi
          simp at hi
        · rw [if_neg h200] at hi
          cases hpanel : p.errorPanel with
          | some txt =>
            simp only [hpanel] at hi
            by_cases hrate : Nitter.panelMentionsRate txt
            · rw [if_pos hrate] at hi
              by_cases hev : (Nitter.resetForRateLimit resetEnv mr st.restartCount).success
              · rw [if_pos hev] at hi
                simp only [List.filterMap_cons] at hi
                match i with
                | 0 =>
                  simp only [List.get?_cons_zero, Option.some.injEq] at hi
                  subst hi
                  refine ⟨Nitter.resetForRateLimit_n resetEnv mr st.restartCount, ?_, ?_⟩
                  · intro hle
                    rw [Nitter.resetForRateLimit_country]
                    rw [Nitter.resetForRateLimit_n] at hle
                    rw [if_neg (by omega), Nitter.resetForRateLimit_n]
                  · intro hgt
                    rw [Nitter.resetForRateLimit_country]
                    rw [Nitter.resetForRateLimit_n] at hgt
                    rw [if_pos hgt]
                | i + 1 =>
                  simp only [List.get?_cons_succ] at hi
                  obtain ⟨hn, hc1, hc2⟩ := ih { st with restartCount := (Nitter.resetForRateLimit resetEnv mr st.restartCount).n, fetchIdx := st.fetchIdx + 1 } i ev hi
                  refine ⟨?_, hc1, hc2⟩
                  have : ({ st with restartCount := (Nitter.resetForRateLimit resetEnv mr st.restartCount).n, fetchIdx := st.fetchIdx + 1 } : RangeState).restartCount = st.restartCount + 1 := by
                    rw [Nitter.resetForRateLimit_n]
                  rw [this] at hn
                  omega
              · rw [if_neg hev] at hi
                simp only [List.filterMap_cons] at hi
                match i with
                | 0 =>
                  simp only [List.filterMap_nil, List.get?_cons_zero, Option.some.injEq] at hi
                  subst hi
                  refine ⟨Nitter.resetForRateLimit_n resetEnv mr st.restartCount, ?_, ?_⟩
                  · intro hle
                    rw [Nitter.resetForRateLimit_country]
                    rw [Nitter.resetForRateLimit_n] at hle
                    rw [if_neg (by omega), Nitter.resetForRateLimit_n]
                  · intro hgt
                    rw [Nitter.resetForRateLimit_country]
                    rw [Nitter.resetForRateLimit_n] at hgt
                    rw [if_pos hgt]
                | i + 1 =>
                  simp only [List.filterMap_nil, List.get?_cons_succ, List.get?_nil] at hi
                  exact absurd hi (by simp)
            · rw [if_neg hrate] at hi
              simp at hi
          | none =>
            simp only [hpanel] at hi
            by_cases hzero : (processItems st.seen ir irr p.items).1.length = 0
            · rw [if_pos hzero] at hi
              simp at hi
            · rw [if_neg hzero] at hi
              cases hcur : p.nextCursor with
              | none =>
                simp only [hcur] at hi
                simp at hi
              | some c =>
                simp only [hcur] at hi
                simp only [List.filterMap_cons] at hi
                exact ih { st with tweets := st.tweets ++ (processItems st.seen ir irr p.items).1, seen := (processItems st.seen ir irr p.items).2, fetchIdx := st.fetchIdx + 1, cursor := some c } i ev hi

end SearchScraper

/-- C7: in every search-loop run, the reset events carry consecutive
cumulative counts starting from the loop's counter; whenever reset number N
selects an identity (it does iff N is within the restart cap), that
identity is the fixed pool's element at index `N mod pool size`; and the
identities of two consecutive resets always differ (the pool has 20
pairwise-adjacent-distinct entries). -/
theorem claim_C7_identity_rotation :
    ∀ (env : ℕ → Nitter.FetchOutcome SearchScraper.Tweet) (resetEnv : ℕ → Bool)
      (mr : ℕ) (u : String) (s ut : ℤ) (ir irr : Bool) (fuel : ℕ)
      (st : SearchScraper.RangeState) (i : ℕ) (ev : Nitter.ResetEvent),
      ((SearchScraper.scrapeRangeLoop env resetEnv mr u s ut ir irr fuel st).attempts.filterMap
        (fun a => a.reset)).get? i = some ev →
      (ev.n = st.restartCount + i + 1 ∧
       (ev.country.isSome →
         ev.country
           = some (Nitter.VPN_COUNTRIES.getD (ev.n % Nitter.VPN_COUNTRIES.length) "")) ∧
       (∀ ev' : Nitter.ResetEvent,
         ((SearchScraper.scrapeRangeLoop env resetEnv mr u s ut ir irr fuel st).attempts.filterMap
           (fun a => a.reset)).get? (i + 1) = some ev' →
         ev'.country.isSome → ev'.country ≠ ev.country)) := by
  intro env resetEnv mr u s ut ir irr fuel st i ev hi
  obtain ⟨hn, hc1, hc2⟩ := SearchScraper.scrapeRangeLoop_resets env resetEnv mr u s ut ir irr
    fuel st i ev hi
  have hcountry : ev.country.isSome →
      ev.country = some (Nitter.VPN_COUNTRIES.getD (ev.n % Nitter.VPN_COUNTRIES.length) "") := by
    intro hs
    by_cases hle : ev.n ≤ mr
    · exact hc1 hle
    · rw [hc2 (by omega)] at hs
      simp at hs
  refine ⟨hn, hcountry, ?_⟩
  intro ev' hi' hs'
  obtain ⟨hn', hc1', hc2'⟩ := SearchScraper.scrapeRangeLoop_resets env resetEnv mr u s ut ir irr
    fuel st (i + 1) ev' hi'
  have hcountry' : ev'.country
      = some (Nitter.VPN_COUNTRIES.getD (ev'.n % Nitter.VPN_COUNTRIES.length) "") := by
    by_cases hle : ev'.n ≤ mr
    · exact hc1' hle
    · rw [hc2' (by omega)] at hs'
      simp at hs'
  by_cases hevs : ev.country.isSome
  case neg =>
    rw [Option.not_isSome_iff_eq_none] at hevs
    rw [hcountry', hevs]
    simp
  case pos =>
    have hcountryev := hcountry hevs
    rw [hcountry', hcountryev]
    have hlen : Nitter.VPN_COUNTRIES.length = 20 := rfl
    rw [hlen]
    have hsucc : ev'.n = ev.n + 1 := by omega
    rw [hsucc]
    intro hcontra
    have := Nitter.vpn_adjacent_distinct ev.n
    simp only [Option.some.injEq] at hcontra
    exact this hcontra

/-- Witness for C7 on a concrete script with two consecutive recovered
resets: reset 1 selects pool index 1, reset 2 a different country. -/
theorem claim_C7_identity_rotation_witness :
    ∃ ev ev' : Nitter.ResetEvent,
      ((SearchScraper.scrapeRangeLoop Scenario.c7SearchEnv (fun _ => true) 50 "u" 0 30
        true true 5 {}).attempts.filterMap (fun a => a.reset)).get? 0 = some ev ∧
      ((SearchScraper.scrapeRangeLoop Scenario.c7SearchEnv (fun _ => true) 50 "u" 0 30
        true true 5 {}).attempts.filterMap (fun a => a.reset)).get? 1 = some ev' ∧
      ev.n = 1 ∧
      ev.country = some (Nitter.VPN_COUNTRIES.getD (ev.n % Nitter.VPN_COUNTRIES.length) "") ∧
      ev'.country ≠ ev.country := by
  cases h0 : ((SearchScraper.scrapeRangeLoop Scenario.c7SearchEnv (fun _ => true) 50 "u" 0 30 true true 5 {}).attempts.filterMap (fun a => a.reset)).get? 0 with
  | none => exact absurd h0 (by decide)
  | some ev =>
    cases h1 : ((SearchScraper.scrapeRangeLoop Scenario.c7SearchEnv (fun _ => true) 50 "u" 0 30 true true 5 {}).attempts.filterMap (fun a => a.reset)).get? 1 with
    | none => exact absurd h1 (by decide)
    | some ev' =>
      have hs : ev.country.isSome = true := by
        have hmap : (((SearchScraper.scrapeRangeLoop Scenario.c7SearchEnv (fun _ => true) 50 "u" 0 30 true true 5 {}).attempts.filterMap (fun a => a.reset)).get? 0).map (fun e => e.country.isSome) = some true := by decide
        rw [h0] at hmap
        simpa using hmap
      have hs' : ev'.country.isSome = true := by
        have hmap : (((SearchScraper.scrapeRangeLoop Scenario.c7SearchEnv (fun _ => true) 50 "u" 0 30 true true 5 {}).attempts.filterMap (fun a => a.reset)).get? 1).map (fun e => e.country.isSome) = some true := by decide
        rw [h1] at hmap
        simpa using hmap
      obtain ⟨hn, hc, hdist⟩ := claim_C7_identity_rotation Scenario.c7SearchEnv (fun _ => true)
        50 "u" 0 30 true true 5 {} 0 ev h0
      exact ⟨ev, ev', rfl, rfl, by simpa using hn, hc hs, hdist ev' h1 hs'⟩

/-- C2, counterexample: the queue methods have no terminal-status guard.
On a job that is already `completed` (stored progress 100, completed_at
"t1"), `update_progress` overwrites the stored progress to 50,
`fail_job` flips the stored status to `failed`, and `complete_job` stamps
a fresh `completed_at` — so none of them is a no-op on a terminal job. -/
theorem claim_C2_counterexample :
    Scenario.c2job.status = Jobs.JobStatus.completed ∧
    Scenario.c2job.progress = 100 ∧
    (Jobs.get_job (Jobs.update_progress Scenario.c2store Scenario.c2job 50 "step" 0 0).2
      "a").map (fun j => j.progress) = some 50 ∧
    (Jobs.get_job (Jobs.fail_job Scenario.c2store Scenario.c2job "boom" "t9").2
      "a").map (fun j => j.status) = some Jobs.JobStatus.failed ∧
    Scenario.c2job.completed_at = some "t1" ∧
    (Jobs.get_job (Jobs.complete_job Scenario.c2store Scenario.c2job "x" [] [] 0 0 "t9").2
      "a").map (fun j => j.completed_at) = some (some "t9") := by
  decide

/-- C2 (amended): none of `update_progress`, `complete_job`, `fail_job`
checks for a terminal status — each mutates and stores the record
unconditionally, for terminal jobs too.  `update_progress` overwrites only
the progress fields (`progress`, `current_step`, `tweets_scraped`,
`retweets_scraped`) and preserves status, results, error, timestamps and
worker id; `complete_job` unconditionally sets status `completed` and a
fresh `completed_at`; `fail_job` unconditionally sets status `failed`, a
fresh `completed_at`, and the error text. -/
theorem claim_C2_amended :
    (∀ (st : Jobs.QueueState) (job : Jobs.Job) (p : ℕ) (cs : String) (tS rS : ℕ),
      (Jobs.updateProgressRecord job p cs tS rS).status = job.status ∧
      (Jobs.updateProgressRecord job p cs tS rS).analysis = job.analysis ∧
      (Jobs.updateProgressRecord job p cs tS rS).themes = job.themes ∧
      (Jobs.updateProgressRecord job p cs tS rS).highlighted_tweets = job.highlighted_tweets ∧
      (Jobs.updateProgressRecord job p cs tS rS).error = job.error ∧
      (Jobs.updateProgressRecord job p cs tS rS).created_at = job.created_at ∧
      (Jobs.updateProgressRecord job p cs tS rS).started_at = job.started_at ∧
      (Jobs.updateProgressRecord job p cs tS rS).completed_at = job.completed_at ∧
      (Jobs.updateProgressRecord job p cs tS rS).worker_id = job.worker_id ∧
      (Jobs.updateProgressRecord job p cs tS rS).progress = p ∧
      (Jobs.updateProgressRecord job p cs tS rS).current_step = cs ∧
      (Jobs.updateProgressRecord job p cs tS rS).tweets_scraped = tS ∧
      (Jobs.updateProgressRecord job p cs tS rS).retweets_scraped = rS ∧
      (Jobs.update_progress st job p cs tS rS).2
        = Jobs.update_job st (Jobs.updateProgressRecord job p cs tS rS)) ∧
    (∀ (job : Jobs.Job) (analysis : String) (themes : List String)
       (hl : List Jobs.HighlightedTweet) (tS rS : ℕ) (now : String),
      (Jobs.completeJobRecord job analysis themes hl tS rS now).status
        = Jobs.JobStatus.completed ∧
      (Jobs.completeJobRecord job analysis themes hl tS rS now).completed_at = some now ∧
      (Jobs.completeJobRecord job analysis themes hl tS rS now).progress = 100) ∧
    (∀ (job : Jobs.Job) (e now : String),
      (Jobs.failJobRecord job e now).status = Jobs.JobStatus.failed ∧
      (Jobs.failJobRecord job e now).completed_at = some now ∧
      (Jobs.failJobRecord job e now).error = some e) := by
  refine ⟨?_, ?_, ?_⟩
  · intro st job p cs tS rS
    exact ⟨rfl, rfl, rfl, rfl, rfl, rfl, rfl, rfl, rfl, rfl, rfl, rfl, rfl, rfl⟩
  · intro job analysis themes hl tS rS now
    exact ⟨rfl, rfl, rfl⟩
  · intro job e now
    exact ⟨rfl, rfl, rfl⟩

/-- C10: when `get_next_job` pops a pending id whose record is absent from
the job hash, it returns None, the pop is already committed (the queue has
lost the entry and it is not restored), and the job hash is untouched —
the claim operation is not atomic. -/
theorem claim_C10_lost_pending_entry :
    ∀ (st : Jobs.QueueState) (jobId : String) (rest : List String) (wid now : String),
      st.queue = jobId :: rest →
      Jobs.get_job st jobId = none →
      ((Jobs.get_next_job wid now st).1 = none ∧
       (Jobs.get_next_job wid now st).2.queue = rest ∧
       (Jobs.get_next_job wid now st).2.jobs = st.jobs ∧
       (¬ jobId ∈ rest → ¬ jobId ∈ (Jobs.get_next_job wid now st).2.queue)) := by
  intro st jobId rest wid now hq hget
  have hget1 : Jobs.get_job { st with queue := rest } jobId = none := hget
  rw [Jobs.get_next_job]
  simp only [hq, hget1]
  exact ⟨trivial, trivial, trivial, fun h => h⟩

/-- Witness for C10: a queue whose single pending id `"ghost"` has no
record loses it permanently. -/
theorem claim_C10_lost_pending_entry_witness :
    (Scenario.c10store.queue = "ghost" :: [] ∧
     Jobs.get_job Scenario.c10store "ghost" = none) ∧
    ((Jobs.get_next_job "w1" "t" Scenario.c10store).1 = none ∧
     (Jobs.get_next_job "w1" "t" Scenario.c10store).2.queue = [] ∧
     (Jobs.get_next_job "w1" "t" Scenario.c10store).2.jobs = Scenario.c10store.jobs ∧
     (¬ "ghost" ∈ ([] : List String) →
       ¬ "ghost" ∈ (Jobs.get_next_job "w1" "t" Scenario.c10store).2.queue)) :=
  ⟨⟨by decide, by decide⟩,
    claim_C10_lost_pending_entry Scenario.c10store "ghost" [] "w1" "t" (by decide) (by decide)⟩

/-- C1: the end-to-end scenario — a claimed job for identity `alice`,
range 2024-01-01..2024-01-31 (days 0..30), originals only; the scripted
proxy serves 2 pages totalling 5 unique originals with no rate limiting
and no reposts; the analysis capability returns a summary plus the single
flag `{"index": 2, "reason": "x"}`.  `Worker.process_job` finishes the job
with status `completed`, `tweets_scraped = 5`, and the stored merged
collection has exactly the item with global index 2 flagged (with reason
"x"), sorted first; the remaining items follow unflagged in date order. -/
theorem claim_C1_end_to_end :
    (Jobs.get_job (Worker.process_job Scenario.c1Env Scenario.c1store Scenario.c1job)
      "j1").map (fun j => j.status) = some Jobs.JobStatus.completed
    ∧ (Jobs.get_job (Worker.process_job Scenario.c1Env Scenario.c1store Scenario.c1job)
      "j1").map (fun j => j.tweets_scraped) = some 5
    ∧ (Jobs.get_job (Worker.process_job Scenario.c1Env Scenario.c1store Scenario.c1job)
      "j1").map (fun j => j.retweets_scraped) = some 0
    ∧ (Jobs.get_job (Worker.process_job Scenario.c1Env Scenario.c1store Scenario.c1job)
      "j1").map (fun j => j.progress) = some 100
    ∧ (Jobs.get_job (Worker.process_job Scenario.c1Env Scenario.c1store Scenario.c1job)
      "j1").map (fun j => j.all_tweets.map (fun t => (t.index, t.flagged, t.flag_reason)))
      = some [(2, true, some "x"), (0, false, none), (1, false, none),
              (3, false, none), (4, false, none)] := by
  refine ⟨?_, ?_, ?_, ?_, ?_⟩ <;> decide
